import Mathlib

/-!
athena-express-plus: a shallow embedding of `lib/athenaExpress.js`.

The JavaScript module is translated function by function.

* JavaScript values that the module inspects are given the shape the Athena
  API documents for them: a result row is `{ Data: [Datum, ...] }`, a `Datum`
  is an object whose only possible own property is `VarCharValue`.
* `undefined` is `none`; a plain object used as a dictionary is the association
  list of its own properties, kept in insertion order. Its prototype is
  `Object.prototype`, so an assignment to the key `__proto__` creates no own
  property.
* A `for` loop is a structurally recursive function on the number of
  iterations left, which keeps the loop guard of the source.
* The three asynchronous retry loops are functions on an explicit `World`
  (calls issued and timers armed so far); the answers of the Athena service are
  a stub indexed by the number of the call.
-/

namespace AthenaExpress

/-! ## JavaScript values used by the result transformation -/

/-- A cell of an Athena result row: `{ VarCharValue: "..." }`, or `{}` for SQL
NULL. -/
structure Datum where
  VarCharValue : Option String
deriving DecidableEq, Repr

/-- A row of `ResultSet.Rows`: `{ Data: [Datum, ...] }`. -/
structure Row where
  Data : List Datum
deriving DecidableEq, Repr

/-- Errors thrown by the JavaScript runtime itself. -/
inductive JsError where
  | TypeError (message : String)
deriving DecidableEq, Repr

/-- The value `Object.values(d)[0]` for a `Datum` `d`: its `VarCharValue`, or
`undefined` (`none`) when the object has no own property. -/
def objectValuesFirst (d : Datum) : Option String :=
  d.VarCharValue

/-- The value `Object.values(x)[0]` where `x` is the result of an array access:
`Object.values(undefined)` throws a `TypeError`. -/
def objectValuesFirstOf : Option Datum → Except JsError (Option String)
  | some d => .ok (objectValuesFirst d)
  | none => .error (.TypeError "Cannot convert undefined or null to object")

/-- The property key a value is coerced to in `obj[value] = ...`. -/
def propertyKey : Option String → String
  | some s => s
  | none => "undefined"

/-- A plain JavaScript object with string keys, as the list of its own
properties in insertion order. -/
abbrev JsObject := List (String × Option String)

/-- Setting the own data property `key` of `obj` to `value`: an existing
property keeps its place and gets the new value, a new property is added at the
end. -/
def JsObject.assignOwn : JsObject → String → Option String → JsObject
  | [], key, value => [(key, value)]
  | (k, v) :: rest, key, value =>
    if k = key then (k, value) :: rest else (k, v) :: JsObject.assignOwn rest key value

/-- The assignment `obj[key] = value` on an object created by the literal `{}`,
whose prototype is `Object.prototype`, for a `value` that is a string or
`undefined`. The key `__proto__` names the accessor property inherited from
`Object.prototype`: the assignment calls its setter, which ignores a value that
is neither an object nor `null`, so no own property is created and `obj` is
unchanged. Every other property of `Object.prototype` is a writable data
property, so for every other key the assignment sets an own property of
`obj`. -/
def JsObject.assign (obj : JsObject) (key : String) (value : Option String) : JsObject :=
  if key = "__proto__" then obj else JsObject.assignOwn obj key value

/-- The own property `key` of `obj`: `none` when there is no such property,
`some none` when the property holds `undefined`. -/
def JsObject.getOwn : JsObject → String → Option (Option String)
  | [], _ => none
  | (k, v) :: rest, key => if k = key then some v else JsObject.getOwn rest key

/-- The own property names of `obj`, in the order in which the properties were
created. `Object.keys(obj)` lists the same names, integer-like ones first. -/
def JsObject.keys (obj : JsObject) : List String :=
  obj.map Prod.fst

/-- What `cleanUpResults` returns: its argument itself (the empty matrix), or
the array of records it built. -/
inductive Items where
  | raw (rows : List Row)
  | records (objects : List JsObject)
deriving DecidableEq, Repr

/-- The length of the array held in `Items`. -/
def Items.length : Items → Nat
  | .raw rows => rows.length
  | .records objects => objects.length

/-! ## `cleanUpResults` (lines 151-175) -/

/-- The inner loop `for (; columnIterator < columnCount; columnIterator++)` of
`cleanUpResults`, run on one row. The first argument counts the iterations
left; the result is the final `columnIterator` and `cleanedUpObject`. -/
def columnLoop (fieldNames data : List Datum) (columnCount : Nat) :
    Nat → Nat → JsObject → Except JsError (Nat × JsObject)
  | 0, columnIterator, cleanedUpObject => .ok (columnIterator, cleanedUpObject)
  | n + 1, columnIterator, cleanedUpObject =>
    if columnIterator < columnCount then
      match objectValuesFirstOf fieldNames[columnIterator]?,
            objectValuesFirstOf data[columnIterator]? with
      | .ok name, .ok value =>
        columnLoop fieldNames data columnCount n (columnIterator + 1)
          (JsObject.assign cleanedUpObject (propertyKey name) value)
      | .error e, _ => .error e
      | .ok _, .error e => .error e
    else .ok (columnIterator, cleanedUpObject)

/-- The local variables of `cleanUpResults` that its loops update. -/
structure CleanUpState where
  rowIterator : Nat
  columnIterator : Nat
  cleanedUpObject : JsObject
  cleanedUpResults : List JsObject
deriving DecidableEq, Repr

/-- The outer loop `for (; rowIterator < rowCount; rowIterator++)` of
`cleanUpResults`. The first argument counts the iterations left. -/
def rowLoop (results : List Row) (rowCount : Nat) (fieldNames : List Datum) (columnCount : Nat) :
    Nat → CleanUpState → Except JsError CleanUpState
  | 0, s => .ok s
  | n + 1, s =>
    if s.rowIterator < rowCount then
      match results[s.rowIterator]? with
      | none => .error (.TypeError "Cannot read properties of undefined")
      | some row =>
        match columnLoop fieldNames row.Data columnCount
            (columnCount - s.columnIterator) s.columnIterator s.cleanedUpObject with
        | .error e => .error e
        | .ok (_, cleanedUpObject) =>
          rowLoop results rowCount fieldNames columnCount n
            { rowIterator := s.rowIterator + 1
              columnIterator := 0
              cleanedUpObject := []
              cleanedUpResults := s.cleanedUpResults ++ [cleanedUpObject] }
    else .ok s

/-- The function `cleanUpResults(results)`. -/
def cleanUpResults (results : List Row) : Except JsError Items :=
  match results with
  | [] => .ok (.raw results)
  | header :: _ =>
    let rowCount := results.length
    let fieldNames := header.Data
    let columnCount := fieldNames.length
    match rowLoop results rowCount fieldNames columnCount (rowCount - 1)
        { rowIterator := 1, columnIterator := 0, cleanedUpObject := [], cleanedUpResults := [] } with
    | .error e => .error e
    | .ok s => .ok (.records s.cleanedUpResults)

/-! ## `commonAthenaErrors` (lines 191-197) -/

/-- An error object a service call rejects with. `code` is `none` when the
object has no `code` property; `name` and `message` are what
`Error.prototype.toString` reads. -/
structure ServiceError where
  code : Option String
  name : String
  message : String
deriving DecidableEq, Repr

/-- The function `commonAthenaErrors(err)`. -/
def commonAthenaErrors (err : ServiceError) : Bool :=
  if err.code = some "TooManyRequestsException" ∨
      err.code = some "ThrottlingException" ∨
      err.code = some "NetworkingError"
  then true
  else false

/-! ## Constants (lines 3-5)

JavaScript numbers are modelled by exact rationals: the decimal literal
`0.000004768` is the rational `4768 / 10^9`, and the rounding of IEEE-754
products is not modelled. -/

/-- The constant `COST_PER_MB = 0.000004768`. -/
def COST_PER_MB : ℚ := 4768 / 1000000000

/-- The constant `BYTES_IN_MB = 1048576`. -/
def BYTES_IN_MB : ℚ := 1048576

/-- The constant `COST_FOR_10MB = COST_PER_MB * 10`. -/
def COST_FOR_10MB : ℚ := COST_PER_MB * 10

/-- The function `Math.round`: the integer nearest to `x`, a tie going to the
larger one. -/
def mathRound (x : ℚ) : ℤ :=
  Int.floor (x + 1 / 2)

/-! ## The request, the configuration and the service stub -/

/-- The argument of `query`: `undefined`, `null`, a string, or an object with
optional string properties `sql` and `db`. Other JavaScript values (numbers,
booleans) are not modelled. -/
inductive Query where
  | undefined
  | null
  | str (s : String)
  | obj (sql : Option String) (db : Option String)
deriving DecidableEq, Repr

/-- JavaScript truthiness of an optional string property. -/
def truthy : Option String → Bool
  | some s => s ≠ ""
  | none => false

/-- The test `!query`: true for `undefined`, `null` and the empty string; every
object is truthy. -/
def Query.isFalsy : Query → Bool
  | .undefined => true
  | .null => true
  | .str s => s = ""
  | .obj _ _ => false

/-- The object `this.config` built by the constructor (its `athena` member is
the service stub, passed separately). -/
structure Config where
  s3 : String
  db : String
  retry : Nat
  formatJson : Bool
  getStats : Bool
deriving DecidableEq, Repr

/-- The parameter object handed to `athena.startQueryExecution`. -/
structure StartParams where
  QueryString : Query
  OutputLocation : String
  Database : String
deriving DecidableEq, Repr

/-- The part of a `getQueryExecution` answer that the module reads:
`data.QueryExecution.Status.State`, `.Status.StateChangeReason`,
`.Statistics.DataScannedInBytes`, `.Statistics.EngineExecutionTimeInMillis`. -/
structure QueryExecutionData where
  State : String
  StateChangeReason : Option String
  DataScannedInBytes : Nat
  EngineExecutionTimeInMillis : Nat
deriving DecidableEq, Repr

/-- A stub of the Athena service: for each operation, the answer of its call
number `n` (counted from 0), a resolved value or a rejection. -/
structure Athena where
  startQueryExecution : Nat → Except ServiceError String
  getQueryExecution : Nat → Except ServiceError QueryExecutionData
  getQueryResults : Nat → Except ServiceError (List Row)

/-- What the module does to the outside: a call of a service operation, or a
timer armed with `setTimeout`. -/
inductive Event where
  | startQueryExecution (params : StartParams)
  | getQueryExecution (QueryExecutionId : String)
  | getQueryResults (QueryExecutionId : String)
  | setTimeout (ms : Nat)
deriving DecidableEq, Repr

/-- The outside world: how many calls each operation of the stub has received,
and everything done so far, oldest first. -/
structure World where
  startCalls : Nat
  pollCalls : Nat
  fetchCalls : Nat
  trace : List Event
deriving DecidableEq, Repr

/-- The world before anything happened. -/
def World.initial : World :=
  { startCalls := 0, pollCalls := 0, fetchCalls := 0, trace := [] }

/-- Arm a timer. -/
def World.setTimeout (w : World) (ms : Nat) : World :=
  { w with trace := w.trace ++ [.setTimeout ms] }

/-- Whether an event is a call of `getQueryResults`. -/
def Event.isGetQueryResults : Event → Bool
  | .getQueryResults _ => true
  | _ => false

/-- Whether an event is a call of `getQueryExecution`. -/
def Event.isGetQueryExecution : Event → Bool
  | .getQueryExecution _ => true
  | _ => false

/-- Whether an event is a call of `startQueryExecution`. -/
def Event.isStartQueryExecution : Event → Bool
  | .startQueryExecution _ => true
  | _ => false

/-- A value a promise of the module is rejected with. -/
inductive Thrown where
  | reason (StateChangeReason : Option String)
  | service (err : ServiceError)
  | js (err : JsError)
deriving DecidableEq, Repr

/-- The method `Error.prototype.toString` on an error with the given `name` and
`message`. -/
def errorToString (name message : String) : String :=
  if name = "" then message
  else if message = "" then name
  else name ++ ": " ++ message

/-- The message of `new Error(error)`: the string conversion of `error`, and
the empty message for `undefined`. -/
def Thrown.message : Thrown → String
  | .reason (some s) => s
  | .reason none => ""
  | .service err => errorToString err.name err.message
  | .js (.TypeError m) => errorToString "TypeError" m

/-- The error `query` fails with: a `TypeError` thrown before the `try` block,
or the `Error` built in its `catch` clause. -/
inductive QueryError where
  | TypeError (message : String)
  | Error (message : String)
deriving DecidableEq, Repr

/-- The object `results` returned by `query`; a statistics field is `none` when
the property was not set. -/
structure Response where
  Items : Items
  DataScannedInMB : Option ℤ
  QueryCostInUSD : Option ℚ
  EngineExecutionTimeInMillis : Option Nat
  Count : Option Nat
deriving DecidableEq

/-! ## `startQueryExecution` (lines 71-98) -/

/-- The value `query.sql || query`. -/
def queryStringOf : Query → Except JsError Query
  | .undefined => .error (.TypeError "Cannot read properties of undefined")
  | .null => .error (.TypeError "Cannot read properties of null")
  | .str s => .ok (.str s)
  | .obj sql db => if truthy sql then .ok (.str (sql.getD "")) else .ok (.obj sql db)

/-- The value `query.db || config.db`. -/
def databaseOf (query : Query) (config : Config) : String :=
  match query with
  | .obj _ db => if truthy db then db.getD "" else config.db
  | _ => config.db

/-- The closure `startQueryExecutionRecursively`. The first argument bounds the
number of service calls the run may make; the result is `none` while the
promise is still pending. -/
def startQueryExecutionRecursively (athena : Athena) (params : StartParams) :
    Nat → World → World × Option (Except Thrown String)
  | 0, w => (w, none)
  | n + 1, w =>
    let w1 : World :=
      { w with startCalls := w.startCalls + 1
               trace := w.trace ++ [.startQueryExecution params] }
    match athena.startQueryExecution w.startCalls with
    | .ok QueryExecutionId => (w1, some (.ok QueryExecutionId))
    | .error err =>
      if commonAthenaErrors err then
        startQueryExecutionRecursively athena params n (w1.setTimeout 2000)
      else (w1, some (.error (.service err)))

/-- The function `startQueryExecution(query, config)`. -/
def startQueryExecution (athena : Athena) (query : Query) (config : Config)
    (fuel : Nat) (w : World) : World × Option (Except Thrown String) :=
  match queryStringOf query with
  | .error e => (w, some (.error (.js e)))
  | .ok QueryString =>
    startQueryExecutionRecursively athena
      { QueryString := QueryString, OutputLocation := config.s3, Database := databaseOf query config }
      fuel w

/-! ## `checkIfExecutionCompleted` (lines 100-129) -/

/-- The variables the closure `keepCheckingRecursively` captures: the local
`retry` and the shared `config` object. -/
structure PollVars where
  retry : Nat
  config : Config
deriving DecidableEq, Repr

/-- The closure `keepCheckingRecursively`. The first argument bounds the number
of service calls the run may make; the result is `none` while the promise is
still pending. -/
def keepCheckingRecursively (athena : Athena) (QueryExecutionId : String) :
    Nat → PollVars → World → (PollVars × World) × Option (Except Thrown QueryExecutionData)
  | 0, v, w => ((v, w), none)
  | n + 1, v, w =>
    let w1 : World :=
      { w with pollCalls := w.pollCalls + 1
               trace := w.trace ++ [.getQueryExecution QueryExecutionId] }
    match athena.getQueryExecution w.pollCalls with
    | .ok data =>
      if data.State = "SUCCEEDED" then
        (({ v with retry := v.config.retry }, w1), some (.ok data))
      else if data.State = "FAILED" then
        ((v, w1), some (.error (.reason data.StateChangeReason)))
      else
        keepCheckingRecursively athena QueryExecutionId n v (w1.setTimeout v.retry)
    | .error err =>
      if commonAthenaErrors err then
        let v1 : PollVars := { v with retry := 2000 }
        keepCheckingRecursively athena QueryExecutionId n v1 (w1.setTimeout v1.retry)
      else ((v, w1), some (.error (.service err)))

/-- The function `checkIfExecutionCompleted(QueryExecutionId, config)`. -/
def checkIfExecutionCompleted (athena : Athena) (QueryExecutionId : String) (config : Config)
    (fuel : Nat) (w : World) :
    (PollVars × World) × Option (Except Thrown QueryExecutionData) :=
  keepCheckingRecursively athena QueryExecutionId fuel { retry := config.retry, config := config } w

/-! ## `getQueryResults` (lines 131-149) -/

/-- The closure `gettingQueryResultsRecursively`. The first argument bounds the
number of service calls the run may make; the result is `none` while the
promise is still pending. -/
def gettingQueryResultsRecursively (athena : Athena) (QueryExecutionId : String) :
    Nat → World → World × Option (Except Thrown (List Row))
  | 0, w => (w, none)
  | n + 1, w =>
    let w1 : World :=
      { w with fetchCalls := w.fetchCalls + 1
               trace := w.trace ++ [.getQueryResults QueryExecutionId] }
    match athena.getQueryResults w.fetchCalls with
    | .ok rows => (w1, some (.ok rows))
    | .error err =>
      if commonAthenaErrors err then
        gettingQueryResultsRecursively athena QueryExecutionId n (w1.setTimeout 2000)
      else (w1, some (.error (.service err)))

/-- The function `getQueryResults(QueryExecutionId, config)`. -/
def getQueryResults (athena : Athena) (QueryExecutionId : String) (_config : Config)
    (fuel : Nat) (w : World) : World × Option (Except Thrown (List Row)) :=
  gettingQueryResultsRecursively athena QueryExecutionId fuel w

/-! ## `AthenaExpress.query` (lines 24-68) -/

/-- The statistics block of `query` (lines 50-62), applied to the response
that already holds `Items`. -/
def attachStats (Items : Items) (stats : QueryExecutionData) : Response :=
  let dataInMb := mathRound ((stats.DataScannedInBytes : ℚ) / BYTES_IN_MB)
  { Items := Items
    DataScannedInMB := some dataInMb
    QueryCostInUSD := some (if dataInMb > 10 then (dataInMb : ℚ) * COST_PER_MB else COST_FOR_10MB)
    EngineExecutionTimeInMillis := some stats.EngineExecutionTimeInMillis
    Count := some Items.length }

/-- The body of the `try` block of `query` after the three awaited calls
(lines 46-64). -/
def assemble (config : Config) (stats : QueryExecutionData) (queryResults : List Row) :
    Except Thrown Response :=
  match (if config.formatJson then cleanUpResults queryResults else .ok (.raw queryResults)) with
  | .error e => .error (.js e)
  | .ok Items =>
    if config.getStats then .ok (attachStats Items stats)
    else .ok { Items := Items, DataScannedInMB := none, QueryCostInUSD := none,
               EngineExecutionTimeInMillis := none, Count := none }

/-- The `catch (error) { throw new Error(error) }` clause of `query`. -/
def wrap (error : Thrown) : QueryError :=
  .Error error.message

/-- The method `query(query)` of an instance whose `this.config` is
`thisConfig`. `fuel` bounds the number of service calls each phase may make;
the result is `none` while the returned promise is still pending. -/
def query (thisConfig : Option Config) (athena : Athena) (fuel : Nat) (query : Query)
    (w : World) : World × Option (Except QueryError Response) :=
  match thisConfig with
  | none => (w, some (.error (.TypeError "Config object not present in the constructor")))
  | some config =>
    if query.isFalsy then (w, some (.error (.TypeError "SQL query is missing")))
    else
      match startQueryExecution athena query config fuel w with
      | (w1, none) => (w1, none)
      | (w1, some (.error e)) => (w1, some (.error (wrap e)))
      | (w1, some (.ok queryExecutionId)) =>
        match checkIfExecutionCompleted athena queryExecutionId config fuel w1 with
        | ((_, w2), none) => (w2, none)
        | ((_, w2), some (.error e)) => (w2, some (.error (wrap e)))
        | ((v, w2), some (.ok stats)) =>
          match getQueryResults athena queryExecutionId v.config fuel w2 with
          | (w3, none) => (w3, none)
          | (w3, some (.error e)) => (w3, some (.error (wrap e)))
          | (w3, some (.ok queryResults)) =>
            match assemble v.config stats queryResults with
            | .error e => (w3, some (.error (wrap e)))
            | .ok results => (w3, some (.ok results))

/-! ## Specification-level definitions

These follow the words of the specification and are what the embedded code is
compared with. -/

/-- The value of header column `columnIndex`. -/
def headerValue (header : List Datum) (columnIndex : Nat) : Option String :=
  header[columnIndex]?.bind Datum.VarCharValue

/-- The value of cell `columnIndex` of a data row. -/
def rowValue (row : List Datum) (columnIndex : Nat) : Option String :=
  row[columnIndex]?.bind Datum.VarCharValue

/-- One step of building a record: `record[headerValue(c)] = rowValue(c)`. -/
def recordStep (header row : List Datum) (record : JsObject) (columnIndex : Nat) : JsObject :=
  JsObject.assign record (propertyKey (headerValue header columnIndex)) (rowValue row columnIndex)

/-- One step of building a record when the header name is not `__proto__`: the
own property `headerValue(c)` of the record is set to `rowValue(c)`. -/
def recordStepOwn (header row : List Datum) (record : JsObject) (columnIndex : Nat) : JsObject :=
  JsObject.assignOwn record (propertyKey (headerValue header columnIndex))
    (rowValue row columnIndex)

/-- The record of one data row as the specification words it: starting from the
empty record, `record[headerValue(c)] = rowValue(c)` for `c` in
`0..columnCount`. -/
def recordOfRow (header row : List Datum) : JsObject :=
  (List.range header.length).foldl (recordStep header row) []

/-- The header names of row 0, as property keys. -/
def headerNames (header : List Datum) : List String :=
  header.map (fun d => propertyKey d.VarCharValue)


/-- Whether an answer of the stub is a rejection that `commonAthenaErrors`
classifies as transient. -/
def isTransientAnswer {α : Type} : Except ServiceError α → Bool
  | .error err => commonAthenaErrors err
  | .ok _ => false

/-- How a promise settles on an answer that is not a transient rejection: it
resolves with the value, or rejects with the error. -/
def settle {α : Type} : Except ServiceError α → Except Thrown α
  | .ok value => .ok value
  | .error err => .error (.service err)

/-- The trace of `N` attempts of `call`, each followed by a timer of `ms`, and
one last attempt. -/
def retried (call : Event) (ms : Nat) : Nat → List Event
  | 0 => [call]
  | N + 1 => call :: .setTimeout ms :: retried call ms N


/-- Whether an answer to a poll leads to another poll: a state other than
`SUCCEEDED` and `FAILED`, or a transient rejection. -/
def keepsPolling : Except ServiceError QueryExecutionData → Bool
  | .ok data => decide (data.State ≠ "SUCCEEDED") && decide (data.State ≠ "FAILED")
  | .error err => commonAthenaErrors err

/-- How the polling promise settles on an answer that ends the polling:
`FAILED` rejects with the state change reason, another state resolves with the
answer, a rejection of the service rejects with its error. -/
def settlePoll : Except ServiceError QueryExecutionData → Except Thrown QueryExecutionData
  | .ok data => if data.State = "FAILED" then .error (.reason data.StateChangeReason) else .ok data
  | .error err => .error (.service err)

/-- Whether one of the `n` polls numbered `base`, ..., `base + n - 1` of the
stub is rejected with a transient error. -/
def sawTransient (athena : Athena) (base n : Nat) : Bool :=
  (List.range n).any (fun i => isTransientAnswer (athena.getQueryExecution (base + i)))

/-- The trace of a polling run that polls `k` more times after the poll
numbered `base` and is done at poll `base + k`, starting with the wait `retry`:
a wait that follows a transient rejection, and every later one, is 2000. -/
def pollRun (athena : Athena) (QueryExecutionId : String) : Nat → Nat → Nat → List Event
  | 0, _, _ => [.getQueryExecution QueryExecutionId]
  | k + 1, base, retry =>
    let wait := if isTransientAnswer (athena.getQueryExecution base) then 2000 else retry
    .getQueryExecution QueryExecutionId :: .setTimeout wait ::
      pollRun athena QueryExecutionId k (base + 1) wait

/-- The number of `getQueryResults` calls in a trace. -/
def fetchCallCount (trace : List Event) : Nat :=
  (trace.filter Event.isGetQueryResults).length

/-- The number of `getQueryExecution` calls in a trace. -/
def pollCallCount (trace : List Event) : Nat :=
  (trace.filter Event.isGetQueryExecution).length

/-- The number of `startQueryExecution` calls in a trace. -/
def startCallCount (trace : List Event) : Nat :=
  (trace.filter Event.isStartQueryExecution).length

/-- The shape of the part `ext` that a polling run adds to the trace, for the
polls numbered from `base` and the initial wait `retry`: position `2 * k` holds
poll `k + 1` of the run, position `2 * k + 1` the timer armed after it, whose
delay is 2000 when one of the polls `1..k + 1` was rejected with a transient
error and `retry` otherwise. -/
def WellTimed (athena : Athena) (QueryExecutionId : String) (base retry : Nat)
    (ext : List Event) : Prop :=
  ∀ k : Nat,
    (∀ ev, ext[2 * k]? = some ev → ev = .getQueryExecution QueryExecutionId) ∧
    (∀ ev, ext[2 * k + 1]? = some ev →
      ev = .setTimeout (if sawTransient athena base (k + 1) then 2000 else retry))

/-! ## Concrete inputs -/

/-- A throttling rejection of the service. -/
def throttled : ServiceError :=
  { code := some "ThrottlingException", name := "ThrottlingException", message := "Rate exceeded" }

/-- A rejection of the service that is not transient. -/
def accessDenied : ServiceError :=
  { code := some "AccessDeniedException", name := "AccessDeniedException", message := "denied" }

/-- The matrix with header `[id, name]` and the data row `[1, a]`. -/
def exampleRows : List Row :=
  [⟨[⟨some "id"⟩, ⟨some "name"⟩]⟩, ⟨[⟨some "1"⟩, ⟨some "a"⟩]⟩]

/-- The answer `SUCCEEDED` with 5 MB scanned. -/
def exampleSucceeded : QueryExecutionData :=
  { State := "SUCCEEDED", StateChangeReason := none,
    DataScannedInBytes := 5242880, EngineExecutionTimeInMillis := 120 }

/-- A configuration with a poll interval of 200 ms, records and statistics
enabled. -/
def exampleConfig : Config :=
  { s3 := "s3://bucket", db := "default", retry := 200, formatJson := true, getStats := true }

/-- A stub each of whose operations is throttled twice and then succeeds. -/
def flakyAthena : Athena :=
  { startQueryExecution := fun n => if n < 2 then .error throttled else .ok "abc"
    getQueryExecution := fun n => if n < 2 then .error throttled else .ok exampleSucceeded
    getQueryResults := fun n => if n < 2 then .error throttled else .ok exampleRows }

/-- The answer `RUNNING`. -/
def exampleRunning : QueryExecutionData :=
  { State := "RUNNING", StateChangeReason := none,
    DataScannedInBytes := 0, EngineExecutionTimeInMillis := 0 }

/-- The answer `FAILED` with reason `SYNTAX_ERROR`. -/
def exampleFailed : QueryExecutionData :=
  { State := "FAILED", StateChangeReason := some "SYNTAX_ERROR",
    DataScannedInBytes := 0, EngineExecutionTimeInMillis := 0 }

/-- The answer `CANCELLED`. -/
def exampleCancelled : QueryExecutionData :=
  { State := "CANCELLED", StateChangeReason := none,
    DataScannedInBytes := 0, EngineExecutionTimeInMillis := 0 }

/-- A stub whose query is `RUNNING` at the first poll and `FAILED` from the
second one on. -/
def failingAthena : Athena :=
  { startQueryExecution := fun _ => .ok "abc"
    getQueryExecution := fun n => if n < 1 then .ok exampleRunning else .ok exampleFailed
    getQueryResults := fun _ => .ok exampleRows }

/-- A stub whose query has been cancelled: every poll answers `CANCELLED`. -/
def cancelledAthena : Athena :=
  { startQueryExecution := fun _ => .ok "abc"
    getQueryExecution := fun _ => .ok exampleCancelled
    getQueryResults := fun _ => .ok exampleRows }

/-- A stub whose submission is throttled once and then denied. -/
def deniedAtStart : Athena :=
  { startQueryExecution := fun n => if n < 1 then .error throttled else .error accessDenied
    getQueryExecution := fun _ => .ok exampleSucceeded
    getQueryResults := fun _ => .ok exampleRows }

/-- A stub whose first poll answers `RUNNING` and whose second poll is
denied. -/
def deniedAtPoll : Athena :=
  { startQueryExecution := fun _ => .ok "abc"
    getQueryExecution := fun n => if n < 1 then .ok exampleRunning else .error accessDenied
    getQueryResults := fun _ => .ok exampleRows }

/-- A stub whose fetch is throttled once and then denied. -/
def deniedAtFetch : Athena :=
  { startQueryExecution := fun _ => .ok "abc"
    getQueryExecution := fun _ => .ok exampleSucceeded
    getQueryResults := fun n => if n < 1 then .error throttled else .error accessDenied }

/-- A stub whose polls answer `RUNNING`, a throttling rejection, `RUNNING`,
and then `SUCCEEDED`. -/
def throttledOnceAthena : Athena :=
  { startQueryExecution := fun _ => .ok "abc"
    getQueryExecution := fun n =>
      if n = 0 then .ok exampleRunning
      else if n = 1 then .error throttled
      else if n = 2 then .ok exampleRunning
      else .ok exampleSucceeded
    getQueryResults := fun _ => .ok exampleRows }

/-- A stub that accepts every call: the submission returns the handle `abc`,
the poll answers `SUCCEEDED`, the fetch returns `exampleRows`. -/
def acceptingAthena : Athena :=
  { startQueryExecution := fun _ => .ok "abc"
    getQueryExecution := fun _ => .ok exampleSucceeded
    getQueryResults := fun _ => .ok exampleRows }

/-- The answer `SUCCEEDED` with 20 MB scanned. -/
def exampleSucceededLarge : QueryExecutionData :=
  { State := "SUCCEEDED", StateChangeReason := none,
    DataScannedInBytes := 20971520, EngineExecutionTimeInMillis := 340 }

/-- The configuration `exampleConfig` with records and statistics switched
off. -/
def rawConfig : Config :=
  { s3 := "s3://bucket", db := "default", retry := 200, formatJson := false, getStats := false }

/-- The stub of the scenario: the submission returns the handle `abc`, the
first poll answers `RUNNING`, the second `SUCCEEDED` with 5 MB scanned, the
fetch returns `exampleRows`. -/
def scenarioAthena : Athena :=
  { startQueryExecution := fun _ => .ok "abc"
    getQueryExecution := fun n => if n < 1 then .ok exampleRunning else .ok exampleSucceeded
    getQueryResults := fun _ => .ok exampleRows }

/-! # Theorems -/

/-! ## Result transformation -/

theorem columnLoop_aligned (fieldNames data : List Datum) (hlen : fieldNames.length ≤ data.length) :
    ∀ (n c : Nat) (obj : JsObject), c + n = fieldNames.length →
      columnLoop fieldNames data fieldNames.length n c obj
        = .ok (fieldNames.length, (List.range' c n).foldl (recordStep fieldNames data) obj) := by
  intro n
  induction n with
  | zero =>
    intro c obj h
    simp at h
    simp [columnLoop, h]
  | succ n ih =>
    intro c obj h
    have hc : c < fieldNames.length := by omega
    have hd : c < data.length := by omega
    have h1 : fieldNames[c]? = some fieldNames[c] := List.getElem?_eq_getElem hc
    have h2 : data[c]? = some data[c] := List.getElem?_eq_getElem hd
    simp only [columnLoop, hc, if_true, h1, h2, objectValuesFirstOf, objectValuesFirst]
    rw [ih (c + 1) _ (by omega)]
    simp [List.range', recordStep, headerValue, rowValue, h1, h2]

theorem rowLoop_aligned (results : List Row) (fieldNames : List Datum)
    (hall : ∀ row ∈ results.drop 1, fieldNames.length ≤ row.Data.length) :
    ∀ (n r : Nat) (acc : List JsObject), 1 ≤ r → r + n = results.length →
      rowLoop results results.length fieldNames fieldNames.length n
          { rowIterator := r, columnIterator := 0, cleanedUpObject := [], cleanedUpResults := acc }
        = .ok { rowIterator := results.length, columnIterator := 0, cleanedUpObject := [],
                cleanedUpResults := acc ++ (results.drop r).map (fun row => recordOfRow fieldNames row.Data) } := by
  intro n
  induction n with
  | zero =>
    intro r acc _ h
    simp at h
    simp [rowLoop, h]
  | succ n ih =>
    intro r acc hr h
    have hlt : r < results.length := by omega
    have h1 : results[r]? = some results[r] := List.getElem?_eq_getElem hlt
    have hmem : results[r] ∈ results.drop 1 := by
      rw [List.mem_iff_getElem]
      refine ⟨r - 1, by simp; omega, ?_⟩
      simp
      congr 1
      omega
    have hal := hall _ hmem
    simp only [rowLoop, hlt, if_true, h1, Nat.sub_zero]
    rw [columnLoop_aligned fieldNames _ hal fieldNames.length 0 [] (by simp)]
    simp only
    rw [ih (r + 1) _ (by omega) (by omega)]
    have hd : results.drop r = results[r] :: results.drop (r + 1) := by
      exact List.drop_eq_getElem_cons hlt
    rw [hd]
    simp only [List.map_cons, recordOfRow, List.range_eq_range', List.append_assoc, List.singleton_append]

theorem cleanUpResults_aligned (header : Row) (rest : List Row)
    (hall : ∀ row ∈ rest, header.Data.length ≤ row.Data.length) :
    cleanUpResults (header :: rest)
      = .ok (.records (rest.map (fun row => recordOfRow header.Data row.Data))) := by
  have h := rowLoop_aligned (header :: rest) header.Data (by simpa using hall)
    rest.length 1 [] (le_refl 1) (by simp [Nat.add_comm])
  simp only [cleanUpResults, List.length_cons, Nat.add_sub_cancel]
  simp only [List.length_cons] at h
  rw [h]
  simp

theorem assignOwn_of_not_mem (obj : JsObject) (key : String) (value : Option String)
    (h : key ∉ JsObject.keys obj) : JsObject.assignOwn obj key value = obj ++ [(key, value)] := by
  induction obj with
  | nil => rfl
  | cons p rest ih =>
    obtain ⟨k, v⟩ := p
    simp only [JsObject.keys, List.map_cons, List.mem_cons, not_or] at h
    have hk : ¬ k = key := fun e => h.1 e.symm
    simp only [JsObject.assignOwn, hk, if_false, List.cons_append]
    rw [ih h.2]

theorem foldl_assignOwn_nodup (kvs : List (String × Option String)) :
    ∀ (acc : JsObject), (JsObject.keys acc ++ kvs.map Prod.fst).Nodup →
      kvs.foldl (fun obj kv => JsObject.assignOwn obj kv.1 kv.2) acc = acc ++ kvs := by
  induction kvs with
  | nil => intro acc _; simp
  | cons kv rest ih =>
    intro acc h
    have hnot : kv.1 ∉ JsObject.keys acc := by
      intro hmem
      have := List.disjoint_of_nodup_append h hmem
      exact this (by simp)
    simp only [List.foldl_cons]
    rw [assignOwn_of_not_mem acc kv.1 kv.2 hnot, ih]
    · simp
    · simpa [JsObject.keys, List.append_assoc] using h

theorem getOwn_of_mem (obj : JsObject) (hnd : (JsObject.keys obj).Nodup)
    (key : String) (value : Option String) (hmem : (key, value) ∈ obj) :
    JsObject.getOwn obj key = some value := by
  induction obj with
  | nil => simp at hmem
  | cons p rest ih =>
    obtain ⟨k, v⟩ := p
    simp only [JsObject.keys, List.map_cons, List.nodup_cons] at hnd
    simp only [List.mem_cons, Prod.mk.injEq] at hmem
    rcases hmem with ⟨hk, hv⟩ | hmem
    · simp [JsObject.getOwn, hk, hv]
    · have hne : ¬ k = key := by
        intro e
        apply hnd.1
        rw [e]
        exact List.mem_map_of_mem Prod.fst hmem
      simp only [JsObject.getOwn, hne, if_false]
      exact ih hnd.2 hmem

theorem assign_of_ne_proto (obj : JsObject) (key : String) (value : Option String)
    (h : key ≠ "__proto__") : JsObject.assign obj key value = JsObject.assignOwn obj key value := by
  simp only [JsObject.assign, h, if_false]

theorem headerName_ne_proto (header : List Datum) (hproto : "__proto__" ∉ headerNames header)
    (c : Nat) (hc : c < header.length) : propertyKey (headerValue header c) ≠ "__proto__" := by
  intro heq
  apply hproto
  rw [← heq]
  simp only [headerNames, List.mem_map]
  exact ⟨header[c], List.getElem_mem hc, by simp [headerValue, List.getElem?_eq_getElem hc]⟩

theorem foldl_recordStep_own (header row : List Datum) :
    ∀ (cs : List Nat) (acc : JsObject),
      (∀ c ∈ cs, propertyKey (headerValue header c) ≠ "__proto__") →
      cs.foldl (recordStep header row) acc = cs.foldl (recordStepOwn header row) acc := by
  intro cs
  induction cs with
  | nil => intro acc _; rfl
  | cons c cs ih =>
    intro acc h
    simp only [List.foldl_cons]
    rw [ih _ (fun c' hc' => h c' (List.mem_cons_of_mem _ hc'))]
    simp only [recordStep, recordStepOwn,
      assign_of_ne_proto _ _ _ (h c (List.mem_cons_self _ _))]

theorem recordOfRow_own (header row : List Datum) (hproto : "__proto__" ∉ headerNames header) :
    recordOfRow header row = (List.range header.length).foldl (recordStepOwn header row) [] := by
  simp only [recordOfRow]
  exact foldl_recordStep_own header row _ []
    (fun c hc => headerName_ne_proto header hproto c (List.mem_range.mp hc))

theorem recordOfRow_nodup (header row : List Datum) (hnd : (headerNames header).Nodup)
    (hproto : "__proto__" ∉ headerNames header) :
    recordOfRow header row
      = (List.range header.length).map
          (fun c => (propertyKey (headerValue header c), rowValue row c)) := by
  have hkeys : (List.range header.length).map (fun c => propertyKey (headerValue header c))
      = headerNames header := by
    apply List.ext_getElem
    · simp [headerNames]
    · intro i h1 h2
      simp at h1
      simp [headerNames, headerValue, List.getElem?_eq_getElem h1]
  have := foldl_assignOwn_nodup
    ((List.range header.length).map (fun c => (propertyKey (headerValue header c), rowValue row c)))
    [] (by simpa [JsObject.keys, Function.comp_def, hkeys] using hnd)
  simp only [List.nil_append] at this
  rw [recordOfRow_own header row hproto, ← this, List.foldl_map]
  rfl

/-- C1: for a non-empty result matrix whose data rows are positionally aligned
to the header row, `cleanUpResults` returns exactly `rowCount - 1` records, and
record `i` is the one built from input row `i + 1`: the header row is not
emitted, no data row is skipped, and the row order is kept. -/
theorem C1_cleanUpResults_one_record_per_data_row (header : Row) (rest : List Row)
    (haligned : ∀ row ∈ rest, header.Data.length ≤ row.Data.length) :
    ∃ records : List JsObject,
      cleanUpResults (header :: rest) = .ok (.records records) ∧
      records.length = (header :: rest).length - 1 ∧
      ∀ i : Nat, records[i]? =
        ((header :: rest)[i + 1]?).map (fun row => recordOfRow header.Data row.Data) := by
  refine ⟨rest.map (fun row => recordOfRow header.Data row.Data),
    cleanUpResults_aligned header rest haligned, by simp, ?_⟩
  intro i
  simp

/-- C1, at the matrix with header `[id, name]` and the data rows `[1, a]`,
`[2, b]`: two records, in row order. -/
theorem C1_cleanUpResults_one_record_per_data_row_witness :
    (∃ records : List JsObject,
      cleanUpResults
          (⟨[⟨some "id"⟩, ⟨some "name"⟩]⟩ ::
            [⟨[⟨some "1"⟩, ⟨some "a"⟩]⟩, ⟨[⟨some "2"⟩, ⟨some "b"⟩]⟩])
        = .ok (.records records) ∧
      records.length =
        ((⟨[⟨some "id"⟩, ⟨some "name"⟩]⟩ : Row) ::
          [⟨[⟨some "1"⟩, ⟨some "a"⟩]⟩, ⟨[⟨some "2"⟩, ⟨some "b"⟩]⟩]).length - 1 ∧
      ∀ i : Nat, records[i]? =
        ((((⟨[⟨some "id"⟩, ⟨some "name"⟩]⟩ : Row) ::
          [⟨[⟨some "1"⟩, ⟨some "a"⟩]⟩, ⟨[⟨some "2"⟩, ⟨some "b"⟩]⟩]))[i + 1]?).map
          (fun row => recordOfRow [⟨some "id"⟩, ⟨some "name"⟩] row.Data)) ∧
    cleanUpResults
        [⟨[⟨some "id"⟩, ⟨some "name"⟩]⟩, ⟨[⟨some "1"⟩, ⟨some "a"⟩]⟩, ⟨[⟨some "2"⟩, ⟨some "b"⟩]⟩]
      = .ok (.records [[("id", some "1"), ("name", some "a")],
                       [("id", some "2"), ("name", some "b")]]) :=
  ⟨C1_cleanUpResults_one_record_per_data_row ⟨[⟨some "id"⟩, ⟨some "name"⟩]⟩
      [⟨[⟨some "1"⟩, ⟨some "a"⟩]⟩, ⟨[⟨some "2"⟩, ⟨some "b"⟩]⟩] (by decide),
    rfl⟩

/-- C2, refuted as stated: with the header `[a, a]` and the data row `[1, 2]`
the record has one key, not `columnCount = 2`, and its value for the name of
column 0 is the cell of column 1; with the header `[__proto__, b]` and the data
row `[1, 2]` the record has the one key `b`, and no own property for the name
of column 0. -/
theorem C2_duplicate_header_counterexample :
    (∃ record : JsObject,
      cleanUpResults [⟨[⟨some "a"⟩, ⟨some "a"⟩]⟩, ⟨[⟨some "1"⟩, ⟨some "2"⟩]⟩]
        = .ok (.records [record]) ∧
      (JsObject.keys record).length ≠ ([⟨some "a"⟩, ⟨some "a"⟩] : List Datum).length ∧
      JsObject.getOwn record (propertyKey (headerValue [⟨some "a"⟩, ⟨some "a"⟩] 0))
        ≠ some (rowValue [⟨some "1"⟩, ⟨some "2"⟩] 0)) ∧
    (∃ record : JsObject,
      cleanUpResults [⟨[⟨some "__proto__"⟩, ⟨some "b"⟩]⟩, ⟨[⟨some "1"⟩, ⟨some "2"⟩]⟩]
        = .ok (.records [record]) ∧
      (JsObject.keys record).length
        ≠ ([⟨some "__proto__"⟩, ⟨some "b"⟩] : List Datum).length ∧
      JsObject.getOwn record (propertyKey (headerValue [⟨some "__proto__"⟩, ⟨some "b"⟩] 0))
        ≠ some (rowValue [⟨some "1"⟩, ⟨some "2"⟩] 0)) :=
  ⟨⟨[("a", some "2")], rfl, by decide, by decide⟩,
    ⟨[("b", some "2")], rfl, by decide, by decide⟩⟩

/-- C2, amended: for a non-empty result matrix whose data rows are aligned to
the header row and whose header names are pairwise distinct and none of them
`__proto__`, the record built for each data row has exactly `columnCount` keys,
these keys are the header names of row 0, and `record[headerName(c)]` is the
value of cell `(r, c)` for every `c < columnCount`. The name of a header cell
without a value is the property key `undefined`. -/
theorem C2_cleanUpResults_record_content (header : Row) (rest : List Row)
    (haligned : ∀ row ∈ rest, header.Data.length ≤ row.Data.length)
    (hdistinct : (headerNames header.Data).Nodup)
    (hproto : "__proto__" ∉ headerNames header.Data) :
    ∃ records : List JsObject,
      cleanUpResults (header :: rest) = .ok (.records records) ∧
      ∀ (r : Nat) (row : Row), rest[r]? = some row →
        ∃ record : JsObject, records[r]? = some record ∧
          JsObject.keys record = headerNames header.Data ∧
          (JsObject.keys record).length = header.Data.length ∧
          ∀ c : Nat, c < header.Data.length →
            JsObject.getOwn record (propertyKey (headerValue header.Data c))
              = some (rowValue row.Data c) := by
  refine ⟨rest.map (fun row => recordOfRow header.Data row.Data),
    cleanUpResults_aligned header rest haligned, ?_⟩
  intro r row hr
  have hkeys : JsObject.keys (recordOfRow header.Data row.Data) = headerNames header.Data := by
    rw [recordOfRow_nodup header.Data row.Data hdistinct hproto]
    apply List.ext_getElem
    · simp [JsObject.keys, headerNames]
    · intro i h1 h2
      simp [JsObject.keys] at h1
      simp [JsObject.keys, headerNames, headerValue, List.getElem?_eq_getElem h1]
  refine ⟨recordOfRow header.Data row.Data, by simp [hr], hkeys, ?_, ?_⟩
  · rw [hkeys]; simp [headerNames]
  · intro c hc
    apply getOwn_of_mem _ (by rw [hkeys]; exact hdistinct)
    rw [recordOfRow_nodup header.Data row.Data hdistinct hproto]
    exact List.mem_map.mpr ⟨c, by simpa using hc, rfl⟩

/-- C2 amended, at the matrix with header `[id, name]` and the data row
`[1, a]`. -/
theorem C2_cleanUpResults_record_content_witness :
    ∃ records : List JsObject,
      cleanUpResults ((⟨[⟨some "id"⟩, ⟨some "name"⟩]⟩ : Row) :: [⟨[⟨some "1"⟩, ⟨some "a"⟩]⟩])
        = .ok (.records records) ∧
      ∀ (r : Nat) (row : Row), ([⟨[⟨some "1"⟩, ⟨some "a"⟩]⟩] : List Row)[r]? = some row →
        ∃ record : JsObject, records[r]? = some record ∧
          JsObject.keys record = headerNames [⟨some "id"⟩, ⟨some "name"⟩] ∧
          (JsObject.keys record).length = ([⟨some "id"⟩, ⟨some "name"⟩] : List Datum).length ∧
          ∀ c : Nat, c < ([⟨some "id"⟩, ⟨some "name"⟩] : List Datum).length →
            JsObject.getOwn record (propertyKey (headerValue [⟨some "id"⟩, ⟨some "name"⟩] c))
              = some (rowValue (row.Data) c) :=
  C2_cleanUpResults_record_content ⟨[⟨some "id"⟩, ⟨some "name"⟩]⟩
    [⟨[⟨some "1"⟩, ⟨some "a"⟩]⟩] (by decide) (by decide) (by decide)

/-- C3: `commonAthenaErrors(err)` is true exactly when `err.code` is one of
`TooManyRequestsException`, `ThrottlingException`, `NetworkingError`; it is
false for every other code and for an error without a code. -/
theorem C3_commonAthenaErrors_iff (err : ServiceError) :
    (commonAthenaErrors err = true ↔
      (err.code = some "TooManyRequestsException" ∨
       err.code = some "ThrottlingException" ∨
       err.code = some "NetworkingError")) ∧
    (commonAthenaErrors err = false ↔
      (err.code ≠ some "TooManyRequestsException" ∧
       err.code ≠ some "ThrottlingException" ∧
       err.code ≠ some "NetworkingError")) ∧
    commonAthenaErrors { err with code := none } = false := by
  refine ⟨?_, ?_, ?_⟩
  · simp [commonAthenaErrors]
  · simp [commonAthenaErrors]
  · simp [commonAthenaErrors]

/-! ## The retry loops -/

theorem filter_retried_length (p : Event → Bool) (call : Event) (ms : Nat)
    (hc : p call = true) (ht : p (.setTimeout ms) = false) :
    ∀ N : Nat, ((retried call ms N).filter p).length = N + 1 := by
  intro N
  induction N with
  | zero => simp [retried, hc]
  | succ N ih =>
    simp only [retried]
    rw [List.filter_cons_of_pos hc, List.filter_cons_of_neg (by simp [ht])]
    simp [ih]

theorem startLoop_run (athena : Athena) (params : StartParams) :
    ∀ (N fuel : Nat) (w : World), N < fuel →
      (∀ i, i < N → isTransientAnswer (athena.startQueryExecution (w.startCalls + i)) = true) →
      isTransientAnswer (athena.startQueryExecution (w.startCalls + N)) = false →
      startQueryExecutionRecursively athena params fuel w =
        ({ w with startCalls := w.startCalls + N + 1
                  trace := w.trace ++ retried (.startQueryExecution params) 2000 N },
          some (settle (athena.startQueryExecution (w.startCalls + N)))) := by
  intro N
  induction N with
  | zero =>
    intro fuel w hf _ hN
    obtain ⟨n, rfl⟩ : ∃ n, fuel = n + 1 := ⟨fuel - 1, by omega⟩
    simp only [Nat.add_zero] at hN ⊢
    cases hans : athena.startQueryExecution w.startCalls with
    | ok id => simp [startQueryExecutionRecursively, hans, retried, settle]
    | error e =>
      rw [hans] at hN
      simp only [isTransientAnswer] at hN
      simp [startQueryExecutionRecursively, hans, retried, settle, hN]
  | succ N ih =>
    intro fuel w hf hpre hN
    obtain ⟨n, rfl⟩ : ∃ n, fuel = n + 1 := ⟨fuel - 1, by omega⟩
    have h0 := hpre 0 (by omega)
    simp only [Nat.add_zero] at h0
    cases hans : athena.startQueryExecution w.startCalls with
    | ok id => rw [hans] at h0; simp [isTransientAnswer] at h0
    | error e =>
      rw [hans] at h0
      simp only [isTransientAnswer] at h0
      simp only [startQueryExecutionRecursively, hans, h0, if_true]
      rw [ih n _ (by omega)]
      · simp [World.setTimeout, retried, Nat.add_assoc, Nat.add_comm 1 N]
      · intro i hi
        have := hpre (i + 1) (by omega)
        simpa [World.setTimeout, Nat.add_assoc, Nat.add_comm 1 i] using this
      · simpa [World.setTimeout, Nat.add_assoc, Nat.add_comm 1 N] using hN

theorem fetchLoop_run (athena : Athena) (QueryExecutionId : String) :
    ∀ (N fuel : Nat) (w : World), N < fuel →
      (∀ i, i < N → isTransientAnswer (athena.getQueryResults (w.fetchCalls + i)) = true) →
      isTransientAnswer (athena.getQueryResults (w.fetchCalls + N)) = false →
      gettingQueryResultsRecursively athena QueryExecutionId fuel w =
        ({ w with fetchCalls := w.fetchCalls + N + 1
                  trace := w.trace ++ retried (.getQueryResults QueryExecutionId) 2000 N },
          some (settle (athena.getQueryResults (w.fetchCalls + N)))) := by
  intro N
  induction N with
  | zero =>
    intro fuel w hf _ hN
    obtain ⟨n, rfl⟩ : ∃ n, fuel = n + 1 := ⟨fuel - 1, by omega⟩
    simp only [Nat.add_zero] at hN ⊢
    cases hans : athena.getQueryResults w.fetchCalls with
    | ok rows => simp [gettingQueryResultsRecursively, hans, retried, settle]
    | error e =>
      rw [hans] at hN
      simp only [isTransientAnswer] at hN
      simp [gettingQueryResultsRecursively, hans, retried, settle, hN]
  | succ N ih =>
    intro fuel w hf hpre hN
    obtain ⟨n, rfl⟩ : ∃ n, fuel = n + 1 := ⟨fuel - 1, by omega⟩
    have h0 := hpre 0 (by omega)
    simp only [Nat.add_zero] at h0
    cases hans : athena.getQueryResults w.fetchCalls with
    | ok rows => rw [hans] at h0; simp [isTransientAnswer] at h0
    | error e =>
      rw [hans] at h0
      simp only [isTransientAnswer] at h0
      simp only [gettingQueryResultsRecursively, hans, h0, if_true]
      rw [ih n _ (by omega)]
      · simp [World.setTimeout, retried, Nat.add_assoc, Nat.add_comm 1 N]
      · intro i hi
        have := hpre (i + 1) (by omega)
        simpa [World.setTimeout, Nat.add_assoc, Nat.add_comm 1 i] using this
      · simpa [World.setTimeout, Nat.add_assoc, Nat.add_comm 1 N] using hN

theorem pollLoop_run (athena : Athena) (QueryExecutionId : String) :
    ∀ (k fuel : Nat) (v : PollVars) (w : World), k < fuel →
      (∀ i, i < k → keepsPolling (athena.getQueryExecution (w.pollCalls + i)) = true) →
      keepsPolling (athena.getQueryExecution (w.pollCalls + k)) = false →
      ∃ v1 : PollVars, v1.config = v.config ∧
        keepCheckingRecursively athena QueryExecutionId fuel v w =
          ((v1, { w with pollCalls := w.pollCalls + k + 1
                         trace := w.trace ++ pollRun athena QueryExecutionId k w.pollCalls v.retry }),
            some (settlePoll (athena.getQueryExecution (w.pollCalls + k)))) := by
  intro k
  induction k with
  | zero =>
    intro fuel v w hf _ hk
    obtain ⟨n, rfl⟩ : ∃ n, fuel = n + 1 := ⟨fuel - 1, by omega⟩
    simp only [Nat.add_zero] at hk ⊢
    cases hans : athena.getQueryExecution w.pollCalls with
    | ok data =>
      rw [hans] at hk
      simp only [keepsPolling, Bool.and_eq_false_iff, decide_eq_false_iff_not, not_not] at hk
      by_cases hs : data.State = "SUCCEEDED"
      · refine ⟨{ v with retry := v.config.retry }, rfl, ?_⟩
        simp [keepCheckingRecursively, hans, hs, pollRun, settlePoll]
      · have hf2 : data.State = "FAILED" := by
          rcases hk with h | h
          · exact absurd h hs
          · exact h
        refine ⟨v, rfl, ?_⟩
        simp [keepCheckingRecursively, hans, hf2, pollRun, settlePoll]
    | error e =>
      rw [hans] at hk
      simp only [keepsPolling] at hk
      refine ⟨v, rfl, ?_⟩
      simp [keepCheckingRecursively, hans, hk, pollRun, settlePoll]
  | succ k ih =>
    intro fuel v w hf hpre hk
    obtain ⟨n, rfl⟩ : ∃ n, fuel = n + 1 := ⟨fuel - 1, by omega⟩
    have h0 := hpre 0 (by omega)
    simp only [Nat.add_zero] at h0
    cases hans : athena.getQueryExecution w.pollCalls with
    | ok data =>
      rw [hans] at h0
      simp only [keepsPolling, Bool.and_eq_true, decide_eq_true_eq] at h0
      obtain ⟨v1, hv1, hrun⟩ := ih n v
        ((({ w with pollCalls := w.pollCalls + 1
                    trace := w.trace ++ [.getQueryExecution QueryExecutionId] } : World)).setTimeout v.retry)
        (by omega)
        (by
          intro i hi
          have := hpre (i + 1) (by omega)
          simpa [World.setTimeout, Nat.add_assoc, Nat.add_comm 1 i] using this)
        (by simpa [World.setTimeout, Nat.add_assoc, Nat.add_comm 1 k] using hk)
      refine ⟨v1, hv1, ?_⟩
      simp only [keepCheckingRecursively, hans, h0.1, h0.2, if_false]
      rw [hrun]
      simp [World.setTimeout, pollRun, hans, isTransientAnswer, Nat.add_assoc, Nat.add_comm 1 k]
    | error e =>
      rw [hans] at h0
      simp only [keepsPolling] at h0
      obtain ⟨v1, hv1, hrun⟩ := ih n { v with retry := 2000 }
        ((({ w with pollCalls := w.pollCalls + 1
                    trace := w.trace ++ [.getQueryExecution QueryExecutionId] } : World)).setTimeout 2000)
        (by omega)
        (by
          intro i hi
          have := hpre (i + 1) (by omega)
          simpa [World.setTimeout, Nat.add_assoc, Nat.add_comm 1 i] using this)
        (by simpa [World.setTimeout, Nat.add_assoc, Nat.add_comm 1 k] using hk)
      refine ⟨v1, hv1, ?_⟩
      simp only [keepCheckingRecursively, hans, h0, if_true]
      rw [hrun]
      simp [World.setTimeout, pollRun, hans, isTransientAnswer, h0, Nat.add_assoc, Nat.add_comm 1 k]

theorem keepsPolling_of_transient (a : Except ServiceError QueryExecutionData)
    (h : isTransientAnswer a = true) : keepsPolling a = true := by
  cases a with
  | ok data => simp [isTransientAnswer] at h
  | error e => simpa [isTransientAnswer, keepsPolling] using h

theorem pollRun_transient (athena : Athena) (QueryExecutionId : String) :
    ∀ (k base retry : Nat),
      (∀ i, i < k → isTransientAnswer (athena.getQueryExecution (base + i)) = true) →
      pollRun athena QueryExecutionId k base retry
        = retried (.getQueryExecution QueryExecutionId) 2000 k := by
  intro k
  induction k with
  | zero => intro base retry _; rfl
  | succ k ih =>
    intro base retry h
    have h0 := h 0 (by omega)
    simp only [Nat.add_zero] at h0
    simp only [pollRun, h0, if_true, retried]
    rw [ih (base + 1) 2000]
    intro i hi
    have := h (i + 1) (by omega)
    simpa [Nat.add_assoc, Nat.add_comm 1 i] using this

/-- C4: for every `N` and each phase, when the stub rejects that phase's call
with a transient error `N` times and then answers successfully (with state
`SUCCEEDED` for the poll), the phase resolves with that answer once it may
make more than `N` calls; it has then issued exactly `N + 1` calls, each failed
one followed by a 2000 ms timer, and no error was propagated. -/
theorem C4_transient_errors_are_retried (athena : Athena) (N fuel : Nat) (hfuel : N < fuel)
    (w : World) :
    (∀ (query QueryString : Query) (config : Config) (QueryExecutionId : String),
      queryStringOf query = .ok QueryString →
      (∀ i, i < N → isTransientAnswer (athena.startQueryExecution (w.startCalls + i)) = true) →
      athena.startQueryExecution (w.startCalls + N) = .ok QueryExecutionId →
      ∃ w1 : World,
        startQueryExecution athena query config fuel w = (w1, some (.ok QueryExecutionId)) ∧
        w1.trace = w.trace ++
          retried (.startQueryExecution ⟨QueryString, config.s3, databaseOf query config⟩) 2000 N ∧
        startCallCount w1.trace = startCallCount w.trace + (N + 1)) ∧
    (∀ (QueryExecutionId : String) (config : Config) (data : QueryExecutionData),
      (∀ i, i < N → isTransientAnswer (athena.getQueryExecution (w.pollCalls + i)) = true) →
      athena.getQueryExecution (w.pollCalls + N) = .ok data →
      data.State = "SUCCEEDED" →
      ∃ (v1 : PollVars) (w1 : World),
        checkIfExecutionCompleted athena QueryExecutionId config fuel w
          = ((v1, w1), some (.ok data)) ∧
        w1.trace = w.trace ++ retried (.getQueryExecution QueryExecutionId) 2000 N ∧
        pollCallCount w1.trace = pollCallCount w.trace + (N + 1)) ∧
    (∀ (QueryExecutionId : String) (config : Config) (rows : List Row),
      (∀ i, i < N → isTransientAnswer (athena.getQueryResults (w.fetchCalls + i)) = true) →
      athena.getQueryResults (w.fetchCalls + N) = .ok rows →
      ∃ w1 : World,
        getQueryResults athena QueryExecutionId config fuel w = (w1, some (.ok rows)) ∧
        w1.trace = w.trace ++ retried (.getQueryResults QueryExecutionId) 2000 N ∧
        fetchCallCount w1.trace = fetchCallCount w.trace + (N + 1)) := by
  refine ⟨?_, ?_, ?_⟩
  · intro query QueryString config QueryExecutionId hq hpre hN
    have hrun := startLoop_run athena ⟨QueryString, config.s3, databaseOf query config⟩
      N fuel w hfuel hpre (by rw [hN]; rfl)
    refine ⟨{ w with startCalls := w.startCalls + N + 1
                     trace := w.trace ++ retried (.startQueryExecution
                       ⟨QueryString, config.s3, databaseOf query config⟩) 2000 N }, ?_, rfl, ?_⟩
    · simp only [startQueryExecution, hq]
      rw [hrun, hN]
      rfl
    · simp only [startCallCount, List.filter_append, List.length_append]
      rw [filter_retried_length _ _ _ rfl rfl]
  · intro QueryExecutionId config data hpre hN hs
    obtain ⟨v1, _, hrun⟩ := pollLoop_run athena QueryExecutionId N fuel
      { retry := config.retry, config := config } w hfuel
      (fun i hi => keepsPolling_of_transient _ (hpre i hi))
      (by rw [hN]; simp [keepsPolling, hs])
    refine ⟨v1, { w with pollCalls := w.pollCalls + N + 1
                         trace := w.trace ++ retried (.getQueryExecution QueryExecutionId) 2000 N },
      ?_, rfl, ?_⟩
    · simp only [checkIfExecutionCompleted]
      rw [hrun, hN, pollRun_transient athena QueryExecutionId N w.pollCalls _ hpre]
      simp [settlePoll, hs]
    · simp only [pollCallCount, List.filter_append, List.length_append]
      rw [filter_retried_length _ _ _ rfl rfl]
  · intro QueryExecutionId config rows hpre hN
    have hrun := fetchLoop_run athena QueryExecutionId N fuel w hfuel hpre (by rw [hN]; rfl)
    refine ⟨{ w with fetchCalls := w.fetchCalls + N + 1
                     trace := w.trace ++ retried (.getQueryResults QueryExecutionId) 2000 N },
      ?_, rfl, ?_⟩
    · simp only [getQueryResults]
      rw [hrun, hN]
      rfl
    · simp only [fetchCallCount, List.filter_append, List.length_append]
      rw [filter_retried_length _ _ _ rfl rfl]

/-- C4, at the stub `flakyAthena` with `N = 2`: each phase resolves after three
calls. -/
theorem C4_transient_errors_are_retried_witness :
    (∃ w1 : World,
      startQueryExecution flakyAthena (.str "SELECT 1") exampleConfig 3 World.initial
        = (w1, some (.ok "abc")) ∧
      w1.trace = World.initial.trace ++
        retried (.startQueryExecution
          ⟨.str "SELECT 1", exampleConfig.s3, databaseOf (.str "SELECT 1") exampleConfig⟩) 2000 2 ∧
      startCallCount w1.trace = startCallCount World.initial.trace + (2 + 1)) ∧
    (∃ (v1 : PollVars) (w1 : World),
      checkIfExecutionCompleted flakyAthena "abc" exampleConfig 3 World.initial
        = ((v1, w1), some (.ok exampleSucceeded)) ∧
      w1.trace = World.initial.trace ++ retried (.getQueryExecution "abc") 2000 2 ∧
      pollCallCount w1.trace = pollCallCount World.initial.trace + (2 + 1)) ∧
    (∃ w1 : World,
      getQueryResults flakyAthena "abc" exampleConfig 3 World.initial
        = (w1, some (.ok exampleRows)) ∧
      w1.trace = World.initial.trace ++ retried (.getQueryResults "abc") 2000 2 ∧
      fetchCallCount w1.trace = fetchCallCount World.initial.trace + (2 + 1)) :=
  ⟨(C4_transient_errors_are_retried flakyAthena 2 3 (by decide) World.initial).1
      (.str "SELECT 1") (.str "SELECT 1") exampleConfig "abc" rfl (by decide) rfl,
    (C4_transient_errors_are_retried flakyAthena 2 3 (by decide) World.initial).2.1
      "abc" exampleConfig exampleSucceeded (by decide) rfl rfl,
    (C4_transient_errors_are_retried flakyAthena 2 3 (by decide) World.initial).2.2
      "abc" exampleConfig exampleRows (by decide) rfl⟩

/-! ## The orchestrator -/

theorem keepChecking_config (athena : Athena) (QueryExecutionId : String) :
    ∀ (n : Nat) (v : PollVars) (w : World),
      (keepCheckingRecursively athena QueryExecutionId n v w).1.1.config = v.config := by
  intro n
  induction n with
  | zero => intro v w; rfl
  | succ n ih =>
    intro v w
    simp only [keepCheckingRecursively]
    split
    · split
      · rfl
      · split
        · rfl
        · rw [ih]
    · split
      · rw [ih]
      · rfl

theorem query_ok_inv (config : Config) (athena : Athena) (fuel : Nat) (q : Query)
    (w w1 : World) (results : Response)
    (hok : query (some config) athena fuel q w = (w1, some (.ok results))) :
    ∃ (stats : QueryExecutionData) (queryResults : List Row),
      assemble config stats queryResults = .ok results := by
  simp only [query] at hok
  split at hok
  · simp at hok
  · split at hok
    · simp at hok
    · simp at hok
    · rename_i w1 queryExecutionId _
      split at hok
      · simp at hok
      · simp at hok
      · rename_i v w2 stats hpoll
        have hv : v.config = config := by
          have := keepChecking_config athena queryExecutionId fuel
            { retry := config.retry, config := config } w1
          simp only [checkIfExecutionCompleted] at hpoll
          rw [hpoll] at this
          exact this
        split at hok
        · simp at hok
        · simp at hok
        · rename_i w3 queryResults _
          split at hok
          · simp at hok
          · rename_i res hres
            simp only [Prod.mk.injEq, Option.some.injEq, Except.ok.injEq] at hok
            refine ⟨stats, queryResults, ?_⟩
            rw [← hv, hres, hok.2]

/-- C5: for every query that succeeds with statistics enabled, with
`R = COST_PER_MB` and `M = COST_FOR_10MB = 10 * R`: when `DataScannedInMB` is at
most 10, `QueryCostInUSD` is `M`; when it is more than 10, `QueryCostInUSD` is
`DataScannedInMB * R`. Numbers are exact rationals. -/
theorem C5_query_cost (config : Config) (athena : Athena) (fuel : Nat) (q : Query)
    (w w1 : World) (results : Response)
    (hok : query (some config) athena fuel q w = (w1, some (.ok results)))
    (hstats : config.getStats = true) :
    COST_FOR_10MB = 10 * COST_PER_MB ∧
    ∃ DataScannedInMB : ℤ, results.DataScannedInMB = some DataScannedInMB ∧
      (DataScannedInMB ≤ 10 → results.QueryCostInUSD = some COST_FOR_10MB) ∧
      (DataScannedInMB > 10 →
        results.QueryCostInUSD = some ((DataScannedInMB : ℚ) * COST_PER_MB)) := by
  refine ⟨by simp [COST_FOR_10MB, mul_comm], ?_⟩
  obtain ⟨stats, queryResults, hasm⟩ := query_ok_inv config athena fuel q w w1 results hok
  simp only [assemble, hstats, if_true] at hasm
  split at hasm
  · simp at hasm
  · rename_i Items _
    simp only [Except.ok.injEq] at hasm
    subst hasm
    refine ⟨mathRound ((stats.DataScannedInBytes : ℚ) / BYTES_IN_MB), rfl, ?_, ?_⟩
    · intro h
      have : ¬ mathRound ((stats.DataScannedInBytes : ℚ) / BYTES_IN_MB) > 10 := by omega
      simp [attachStats, this]
    · intro h
      simp [attachStats, h]

/-- C5, at a query that succeeds after two throttled calls in each phase, with
5 MB scanned: the cost is the fixed minimum. -/
theorem C5_query_cost_witness :
    (COST_FOR_10MB = 10 * COST_PER_MB ∧
      ∃ DataScannedInMB : ℤ,
        (attachStats (.records [[("id", some "1"), ("name", some "a")]])
          exampleSucceeded).DataScannedInMB = some DataScannedInMB ∧
        (DataScannedInMB ≤ 10 →
          (attachStats (.records [[("id", some "1"), ("name", some "a")]])
            exampleSucceeded).QueryCostInUSD = some COST_FOR_10MB) ∧
        (DataScannedInMB > 10 →
          (attachStats (.records [[("id", some "1"), ("name", some "a")]])
            exampleSucceeded).QueryCostInUSD = some ((DataScannedInMB : ℚ) * COST_PER_MB))) ∧
    (attachStats (.records [[("id", some "1"), ("name", some "a")]])
      exampleSucceeded).DataScannedInMB = some 5 ∧
    (attachStats (.records [[("id", some "1"), ("name", some "a")]])
      exampleSucceeded).QueryCostInUSD = some (4768 / 100000000) :=
  ⟨C5_query_cost exampleConfig flakyAthena 3 (.str "SELECT 1") World.initial
      (query (some exampleConfig) flakyAthena 3 (.str "SELECT 1") World.initial).1
      (attachStats (.records [[("id", some "1"), ("name", some "a")]]) exampleSucceeded)
      rfl rfl,
    by
      have h : mathRound (((5242880 : ℕ) : ℚ) / BYTES_IN_MB) = 5 := by
        simp only [mathRound, BYTES_IN_MB]
        rw [Int.floor_eq_iff]
        norm_num
      simp only [attachStats, exampleSucceeded, h]
      norm_num [COST_FOR_10MB, COST_PER_MB]⟩

theorem startLoop_frame (athena : Athena) (params : StartParams) :
    ∀ (n : Nat) (w : World),
      (startQueryExecutionRecursively athena params n w).1.pollCalls = w.pollCalls ∧
      (startQueryExecutionRecursively athena params n w).1.fetchCalls = w.fetchCalls ∧
      pollCallCount (startQueryExecutionRecursively athena params n w).1.trace
        = pollCallCount w.trace ∧
      fetchCallCount (startQueryExecutionRecursively athena params n w).1.trace
        = fetchCallCount w.trace := by
  intro n
  induction n with
  | zero => intro w; simp [startQueryExecutionRecursively]
  | succ n ih =>
    intro w
    simp only [startQueryExecutionRecursively]
    split
    · simp [pollCallCount, fetchCallCount, Event.isGetQueryExecution, Event.isGetQueryResults]
    · split
      · obtain ⟨h1, h2, h3, h4⟩ := ih
          (({ w with startCalls := w.startCalls + 1
                     trace := w.trace ++ [.startQueryExecution params] } : World).setTimeout 2000)
        rw [h1, h2, h3, h4]
        simp [World.setTimeout, pollCallCount, fetchCallCount, Event.isGetQueryExecution,
          Event.isGetQueryResults]
      · simp [pollCallCount, fetchCallCount, Event.isGetQueryExecution, Event.isGetQueryResults]

theorem startQueryExecution_frame (athena : Athena) (q : Query) (config : Config)
    (fuel : Nat) (w : World) :
    (startQueryExecution athena q config fuel w).1.pollCalls = w.pollCalls ∧
    (startQueryExecution athena q config fuel w).1.fetchCalls = w.fetchCalls ∧
    pollCallCount (startQueryExecution athena q config fuel w).1.trace = pollCallCount w.trace ∧
    fetchCallCount (startQueryExecution athena q config fuel w).1.trace
      = fetchCallCount w.trace := by
  simp only [startQueryExecution]
  split
  · simp
  · exact startLoop_frame athena _ fuel w

theorem pollLoop_frame (athena : Athena) (QueryExecutionId : String) :
    ∀ (n : Nat) (v : PollVars) (w : World),
      (keepCheckingRecursively athena QueryExecutionId n v w).1.2.fetchCalls = w.fetchCalls ∧
      fetchCallCount (keepCheckingRecursively athena QueryExecutionId n v w).1.2.trace
        = fetchCallCount w.trace := by
  intro n
  induction n with
  | zero => intro v w; simp [keepCheckingRecursively]
  | succ n ih =>
    intro v w
    simp only [keepCheckingRecursively]
    split
    · split
      · simp [fetchCallCount, Event.isGetQueryResults]
      · split
        · simp [fetchCallCount, Event.isGetQueryResults]
        · obtain ⟨h1, h2⟩ := ih v
            (({ w with pollCalls := w.pollCalls + 1
                       trace := w.trace ++ [.getQueryExecution QueryExecutionId] } : World).setTimeout
              v.retry)
          rw [h1, h2]
          simp [World.setTimeout, fetchCallCount, Event.isGetQueryResults]
    · split
      · obtain ⟨h1, h2⟩ := ih { v with retry := 2000 }
          (({ w with pollCalls := w.pollCalls + 1
                     trace := w.trace ++ [.getQueryExecution QueryExecutionId] } : World).setTimeout
            2000)
        rw [h1, h2]
        simp [World.setTimeout, fetchCallCount, Event.isGetQueryResults]
      · simp [fetchCallCount, Event.isGetQueryResults]

/-- C6: when submission succeeds and, after polls that keep polling, a poll
reports state `FAILED` with reason `s`, `query` fails with one `Error` whose
message is `s`; `getQueryResults` is not called, and no response (no `Items`,
no statistics) is produced. -/
theorem C6_failed_state_rejects_with_reason (config : Config) (athena : Athena)
    (fuel k : Nat) (q : Query) (w w1 : World) (queryExecutionId s : String)
    (data : QueryExecutionData)
    (hq : q.isFalsy = false)
    (hstart : startQueryExecution athena q config fuel w = (w1, some (.ok queryExecutionId)))
    (hfuel : k < fuel)
    (hpre : ∀ i, i < k → keepsPolling (athena.getQueryExecution (w1.pollCalls + i)) = true)
    (hk : athena.getQueryExecution (w1.pollCalls + k) = .ok data)
    (hstate : data.State = "FAILED")
    (hreason : data.StateChangeReason = some s) :
    ∃ w2 : World,
      query (some config) athena fuel q w = (w2, some (.error (.Error s))) ∧
      w2.fetchCalls = w.fetchCalls ∧
      fetchCallCount w2.trace = fetchCallCount w.trace := by
  obtain ⟨v1, _, hrun⟩ := pollLoop_run athena queryExecutionId k fuel
    { retry := config.retry, config := config } w1 hfuel hpre
    (by rw [hk]; simp [keepsPolling, hstate])
  have hframe := pollLoop_frame athena queryExecutionId fuel
    { retry := config.retry, config := config } w1
  have hsf := startQueryExecution_frame athena q config fuel w
  rw [hstart] at hsf
  rw [hrun] at hframe
  simp only at hframe hsf
  refine ⟨{ w1 with pollCalls := w1.pollCalls + k + 1
                    trace := w1.trace ++
                      pollRun athena queryExecutionId k w1.pollCalls config.retry }, ?_, ?_, ?_⟩
  · simp only [query, hq, hstart, checkIfExecutionCompleted, hrun, hk, settlePoll, hstate,
      hreason, wrap, Thrown.message]
    simp
  · exact hsf.2.1
  · simp only []
    rw [hframe.2, hsf.2.2.2]

/-- C6, at a stub that answers `RUNNING` once and then `FAILED` with reason
`SYNTAX_ERROR`. -/
theorem C6_failed_state_rejects_with_reason_witness :
    ∃ w2 : World,
      query (some exampleConfig) failingAthena 2 (.str "SELECT 1") World.initial
        = (w2, some (.error (.Error "SYNTAX_ERROR"))) ∧
      w2.fetchCalls = World.initial.fetchCalls ∧
      fetchCallCount w2.trace = fetchCallCount World.initial.trace :=
  C6_failed_state_rejects_with_reason exampleConfig failingAthena 2 1 (.str "SELECT 1")
    World.initial
    (startQueryExecution failingAthena (.str "SELECT 1") exampleConfig 2 World.initial).1
    "abc" "SYNTAX_ERROR" exampleFailed rfl rfl (by decide) (by decide) rfl rfl rfl

theorem pollLoop_pending (athena : Athena) (QueryExecutionId : String) :
    ∀ (n : Nat) (v : PollVars) (w : World),
      (∀ i, i < n → keepsPolling (athena.getQueryExecution (w.pollCalls + i)) = true) →
      (keepCheckingRecursively athena QueryExecutionId n v w).2 = none ∧
      (keepCheckingRecursively athena QueryExecutionId n v w).1.2.pollCalls
        = w.pollCalls + n := by
  intro n
  induction n with
  | zero => intro v w _; simp [keepCheckingRecursively]
  | succ n ih =>
    intro v w hpre
    have h0 := hpre 0 (by omega)
    simp only [Nat.add_zero] at h0
    cases hans : athena.getQueryExecution w.pollCalls with
    | ok data =>
      rw [hans] at h0
      simp only [keepsPolling, Bool.and_eq_true, decide_eq_true_eq] at h0
      have h := ih v
        ((({ w with pollCalls := w.pollCalls + 1
                    trace := w.trace ++ [.getQueryExecution QueryExecutionId] } : World)).setTimeout
          v.retry)
        (by
          intro i hi
          have := hpre (i + 1) (by omega)
          simpa [World.setTimeout, Nat.add_assoc, Nat.add_comm 1 i] using this)
      simp only [keepCheckingRecursively, hans, h0.1, h0.2, if_false]
      refine ⟨h.1, ?_⟩
      rw [h.2]
      simp [World.setTimeout, Nat.add_assoc, Nat.add_comm 1 n]
    | error e =>
      rw [hans] at h0
      simp only [keepsPolling] at h0
      have h := ih { v with retry := 2000 }
        ((({ w with pollCalls := w.pollCalls + 1
                    trace := w.trace ++ [.getQueryExecution QueryExecutionId] } : World)).setTimeout
          2000)
        (by
          intro i hi
          have := hpre (i + 1) (by omega)
          simpa [World.setTimeout, Nat.add_assoc, Nat.add_comm 1 i] using this)
      simp only [keepCheckingRecursively, hans, h0, if_true]
      refine ⟨h.1, ?_⟩
      rw [h.2]
      simp [World.setTimeout, Nat.add_assoc, Nat.add_comm 1 n]

/-- C7, the code at a cancelled query: a poll answered `CANCELLED` leads to
another poll. Whatever number `n` of polls the run may make, it issues all `n`
of them and its promise is still pending. -/
theorem C7_cancelled_keeps_polling (config : Config) (w : World) (n : Nat) :
    keepsPolling (.ok exampleCancelled) = true ∧
    (checkIfExecutionCompleted cancelledAthena "abc" config n w).2 = none ∧
    (checkIfExecutionCompleted cancelledAthena "abc" config n w).1.2.pollCalls
      = w.pollCalls + n :=
  ⟨by decide,
    pollLoop_pending cancelledAthena "abc" n { retry := config.retry, config := config } w
      (fun _ _ => rfl)⟩

/-- C8: for the empty string, `null` and `undefined`, `query` throws the
`TypeError` "SQL query is missing", and the world is unchanged: no call to
the service is made. -/
theorem C8_missing_query_is_rejected (config : Config) (athena : Athena) (fuel : Nat)
    (w : World) :
    query (some config) athena fuel (.str "") w
      = (w, some (.error (.TypeError "SQL query is missing"))) ∧
    query (some config) athena fuel .null w
      = (w, some (.error (.TypeError "SQL query is missing"))) ∧
    query (some config) athena fuel .undefined w
      = (w, some (.error (.TypeError "SQL query is missing"))) := by
  refine ⟨?_, ?_, ?_⟩ <;> simp [query, Query.isFalsy]

theorem queryStringOf_ok (q : Query) (hq : q.isFalsy = false) :
    ∃ QueryString : Query, queryStringOf q = .ok QueryString := by
  cases q with
  | undefined => simp [Query.isFalsy] at hq
  | null => simp [Query.isFalsy] at hq
  | str s => exact ⟨_, rfl⟩
  | obj sql db =>
    by_cases h : truthy sql = true
    · exact ⟨.str (sql.getD ""), by simp only [queryStringOf, h, if_true]⟩
    · exact ⟨.obj sql db, by simp only [queryStringOf, h]; rfl⟩

theorem pollRun_counts (athena : Athena) (QueryExecutionId : String) :
    ∀ (k base retry : Nat),
      pollCallCount (pollRun athena QueryExecutionId k base retry) = k + 1 ∧
      fetchCallCount (pollRun athena QueryExecutionId k base retry) = 0 := by
  intro k
  induction k with
  | zero =>
    intro base retry
    simp [pollRun, pollCallCount, fetchCallCount, Event.isGetQueryExecution,
      Event.isGetQueryResults]
  | succ k ih =>
    intro base retry
    have h := ih (base + 1)
      (if isTransientAnswer (athena.getQueryExecution base) = true then 2000 else retry)
    simp only [pollCallCount, fetchCallCount] at h
    simp only [pollRun, pollCallCount, fetchCallCount]
    rw [List.filter_cons_of_pos (by rfl), List.filter_cons_of_neg (by simp [Event.isGetQueryExecution]),
      List.filter_cons_of_neg (by simp [Event.isGetQueryResults]),
      List.filter_cons_of_neg (by simp [Event.isGetQueryResults])]
    simp [h.1, h.2]

/-- C9: in each phase, when a service call is rejected with an error that
`commonAthenaErrors` does not classify as transient (after `k` calls that were
retried or, for the poll, kept polling), the lifecycle aborts: that call is the
last one of the run, no call of a later phase is issued, and `query` fails with
one `Error` built from the rejection, not with a response. -/
theorem C9_non_transient_error_aborts (config : Config) (athena : Athena) (fuel k : Nat)
    (q : Query) (w : World) (err : ServiceError)
    (hq : q.isFalsy = false) (hfuel : k < fuel) (herr : commonAthenaErrors err = false) :
    ((∀ i, i < k → isTransientAnswer (athena.startQueryExecution (w.startCalls + i)) = true) →
      athena.startQueryExecution (w.startCalls + k) = .error err →
      ∃ (w1 : World) (params : StartParams),
        query (some config) athena fuel q w = (w1, some (.error (wrap (.service err)))) ∧
        w1.trace = w.trace ++ retried (.startQueryExecution params) 2000 k ∧
        pollCallCount w1.trace = pollCallCount w.trace ∧
        fetchCallCount w1.trace = fetchCallCount w.trace) ∧
    (∀ (w1 : World) (queryExecutionId : String),
      startQueryExecution athena q config fuel w = (w1, some (.ok queryExecutionId)) →
      (∀ i, i < k → keepsPolling (athena.getQueryExecution (w1.pollCalls + i)) = true) →
      athena.getQueryExecution (w1.pollCalls + k) = .error err →
      ∃ w2 : World,
        query (some config) athena fuel q w = (w2, some (.error (wrap (.service err)))) ∧
        w2.trace = w1.trace ++ pollRun athena queryExecutionId k w1.pollCalls config.retry ∧
        pollCallCount w2.trace = pollCallCount w1.trace + (k + 1) ∧
        fetchCallCount w2.trace = fetchCallCount w.trace) ∧
    (∀ (w1 w2 : World) (queryExecutionId : String) (v : PollVars) (stats : QueryExecutionData),
      startQueryExecution athena q config fuel w = (w1, some (.ok queryExecutionId)) →
      checkIfExecutionCompleted athena queryExecutionId config fuel w1
        = ((v, w2), some (.ok stats)) →
      (∀ i, i < k → isTransientAnswer (athena.getQueryResults (w2.fetchCalls + i)) = true) →
      athena.getQueryResults (w2.fetchCalls + k) = .error err →
      ∃ w3 : World,
        query (some config) athena fuel q w = (w3, some (.error (wrap (.service err)))) ∧
        w3.trace = w2.trace ++ retried (.getQueryResults queryExecutionId) 2000 k ∧
        fetchCallCount w3.trace = fetchCallCount w2.trace + (k + 1)) := by
  refine ⟨?_, ?_, ?_⟩
  · intro hpre hk
    obtain ⟨QueryString, hqs⟩ := queryStringOf_ok q hq
    have hrun := startLoop_run athena ⟨QueryString, config.s3, databaseOf q config⟩
      k fuel w hfuel hpre (by rw [hk]; simpa [isTransientAnswer] using herr)
    refine ⟨{ w with startCalls := w.startCalls + k + 1
                     trace := w.trace ++ retried (.startQueryExecution
                       ⟨QueryString, config.s3, databaseOf q config⟩) 2000 k },
      ⟨QueryString, config.s3, databaseOf q config⟩, ?_, rfl, ?_, ?_⟩
    · simp only [query, hq, startQueryExecution, hqs, hrun, hk, settle]
      simp
    · have h := filter_retried_length Event.isGetQueryExecution
        (.startQueryExecution ⟨QueryString, config.s3, databaseOf q config⟩) 2000
      simp only [pollCallCount, List.filter_append, List.length_append]
      have hz : ∀ N, (List.filter Event.isGetQueryExecution
          (retried (.startQueryExecution ⟨QueryString, config.s3, databaseOf q config⟩)
            2000 N)).length = 0 := by
        intro N
        induction N with
        | zero => simp [retried, Event.isGetQueryExecution]
        | succ N ih => simpa [retried, Event.isGetQueryExecution] using ih
      rw [hz]
      rfl
    · simp only [fetchCallCount, List.filter_append, List.length_append]
      have hz : ∀ N, (List.filter Event.isGetQueryResults
          (retried (.startQueryExecution ⟨QueryString, config.s3, databaseOf q config⟩)
            2000 N)).length = 0 := by
        intro N
        induction N with
        | zero => simp [retried, Event.isGetQueryResults]
        | succ N ih => simpa [retried, Event.isGetQueryResults] using ih
      rw [hz]
      rfl
  · intro w1 queryExecutionId hstart hpre hk
    obtain ⟨v1, _, hrun⟩ := pollLoop_run athena queryExecutionId k fuel
      { retry := config.retry, config := config } w1 hfuel hpre
      (by rw [hk]; simpa [keepsPolling] using herr)
    have hsf := startQueryExecution_frame athena q config fuel w
    rw [hstart] at hsf
    have hc := pollRun_counts athena queryExecutionId k w1.pollCalls config.retry
    refine ⟨{ w1 with pollCalls := w1.pollCalls + k + 1
                      trace := w1.trace ++
                        pollRun athena queryExecutionId k w1.pollCalls config.retry },
      ?_, rfl, ?_, ?_⟩
    · simp only [query, hq, hstart, checkIfExecutionCompleted, hrun, hk, settlePoll]
      simp
    · simp only [pollCallCount, List.filter_append, List.length_append]
      simp only [pollCallCount] at hc
      rw [hc.1]
    · simp only [fetchCallCount, List.filter_append, List.length_append]
      simp only [fetchCallCount] at hc hsf
      rw [hc.2, hsf.2.2.2]
      rfl
  · intro w1 w2 queryExecutionId v stats hstart hpoll hpre hk
    have hrun := fetchLoop_run athena queryExecutionId k fuel w2 hfuel hpre
      (by rw [hk]; simpa [isTransientAnswer] using herr)
    refine ⟨{ w2 with fetchCalls := w2.fetchCalls + k + 1
                      trace := w2.trace ++ retried (.getQueryResults queryExecutionId) 2000 k },
      ?_, rfl, ?_⟩
    · simp only [query, hq, hstart, hpoll, getQueryResults, hrun, hk, settle]
      simp
    · simp only [fetchCallCount, List.filter_append, List.length_append]
      rw [filter_retried_length _ _ _ rfl rfl]

/-- C9, at three stubs that deny the second call of the submit, poll and fetch
phase respectively. -/
theorem C9_non_transient_error_aborts_witness :
    (∃ (w1 : World) (params : StartParams),
      query (some exampleConfig) deniedAtStart 2 (.str "SELECT 1") World.initial
        = (w1, some (.error (.Error "AccessDeniedException: denied"))) ∧
      w1.trace = World.initial.trace ++ retried (.startQueryExecution params) 2000 1 ∧
      pollCallCount w1.trace = pollCallCount World.initial.trace ∧
      fetchCallCount w1.trace = fetchCallCount World.initial.trace) ∧
    (∃ w2 : World,
      query (some exampleConfig) deniedAtPoll 2 (.str "SELECT 1") World.initial
        = (w2, some (.error (.Error "AccessDeniedException: denied"))) ∧
      w2.trace =
        (startQueryExecution deniedAtPoll (.str "SELECT 1") exampleConfig 2 World.initial).1.trace
          ++ pollRun deniedAtPoll "abc" 1 0 200 ∧
      pollCallCount w2.trace =
        pollCallCount
          (startQueryExecution deniedAtPoll (.str "SELECT 1") exampleConfig 2
            World.initial).1.trace + (1 + 1) ∧
      fetchCallCount w2.trace = fetchCallCount World.initial.trace) ∧
    (∃ w3 : World,
      query (some exampleConfig) deniedAtFetch 2 (.str "SELECT 1") World.initial
        = (w3, some (.error (.Error "AccessDeniedException: denied"))) ∧
      w3.trace =
        (checkIfExecutionCompleted deniedAtFetch "abc" exampleConfig 2
          (startQueryExecution deniedAtFetch (.str "SELECT 1") exampleConfig 2
            World.initial).1).1.2.trace
          ++ retried (.getQueryResults "abc") 2000 1 ∧
      fetchCallCount w3.trace =
        fetchCallCount
          (checkIfExecutionCompleted deniedAtFetch "abc" exampleConfig 2
            (startQueryExecution deniedAtFetch (.str "SELECT 1") exampleConfig 2
              World.initial).1).1.2.trace + (1 + 1)) :=
  ⟨(C9_non_transient_error_aborts exampleConfig deniedAtStart 2 1 (.str "SELECT 1")
      World.initial accessDenied rfl (by decide) rfl).1 (by decide) rfl,
    (C9_non_transient_error_aborts exampleConfig deniedAtPoll 2 1 (.str "SELECT 1")
      World.initial accessDenied rfl (by decide) rfl).2.1
      (startQueryExecution deniedAtPoll (.str "SELECT 1") exampleConfig 2 World.initial).1
      "abc" rfl (by decide) rfl,
    (C9_non_transient_error_aborts exampleConfig deniedAtFetch 2 1 (.str "SELECT 1")
      World.initial accessDenied rfl (by decide) rfl).2.2
      (startQueryExecution deniedAtFetch (.str "SELECT 1") exampleConfig 2 World.initial).1
      (checkIfExecutionCompleted deniedAtFetch "abc" exampleConfig 2
        (startQueryExecution deniedAtFetch (.str "SELECT 1") exampleConfig 2
          World.initial).1).1.2
      "abc"
      (checkIfExecutionCompleted deniedAtFetch "abc" exampleConfig 2
        (startQueryExecution deniedAtFetch (.str "SELECT 1") exampleConfig 2
          World.initial).1).1.1
      exampleSucceeded rfl rfl (by decide) rfl⟩

/-! ## The poll interval -/

theorem sawTransient_succ (athena : Athena) (base n : Nat) :
    sawTransient athena base (n + 1)
      = (isTransientAnswer (athena.getQueryExecution base) || sawTransient athena (base + 1) n) := by
  simp only [sawTransient, List.range_succ_eq_map, List.any_cons, List.any_map, Nat.add_zero]
  congr 1
  apply congrArg (fun f => List.any (List.range n) f)
  funext i
  simp [Function.comp, Nat.add_assoc, Nat.add_comm 1 i]

theorem wellTimed_nil (athena : Athena) (QueryExecutionId : String) (base retry : Nat) :
    WellTimed athena QueryExecutionId base retry [] := by
  intro k
  constructor <;> intro ev h <;> simp at h

theorem wellTimed_single (athena : Athena) (QueryExecutionId : String) (base retry : Nat) :
    WellTimed athena QueryExecutionId base retry [.getQueryExecution QueryExecutionId] := by
  intro k
  constructor
  · intro ev h
    cases k with
    | zero => simpa using h.symm
    | succ k =>
      have e : 2 * (k + 1) = 2 * k + 1 + 1 := by omega
      rw [e] at h
      simp at h
  · intro ev h
    simp at h

theorem wellTimed_cons (athena : Athena) (QueryExecutionId : String) (base retry wait : Nat)
    (ext : List Event)
    (hwait : wait = if isTransientAnswer (athena.getQueryExecution base) then 2000 else retry)
    (h : WellTimed athena QueryExecutionId (base + 1) wait ext) :
    WellTimed athena QueryExecutionId base retry
      (.getQueryExecution QueryExecutionId :: .setTimeout wait :: ext) := by
  intro k
  cases k with
  | zero =>
    constructor
    · intro ev hev
      simpa using hev.symm
    · intro ev hev
      simp only [Nat.mul_zero, Nat.zero_add, List.getElem?_cons_succ, List.getElem?_cons_zero,
        Option.some.injEq] at hev
      rw [← hev, hwait]
      simp [sawTransient]
  | succ k =>
    have e1 : 2 * (k + 1) = 2 * k + 1 + 1 := by omega
    have e2 : 2 * (k + 1) + 1 = 2 * k + 1 + 1 + 1 := by omega
    constructor
    · intro ev hev
      rw [e1, List.getElem?_cons_succ, List.getElem?_cons_succ] at hev
      exact (h k).1 ev hev
    · intro ev hev
      rw [e2, List.getElem?_cons_succ, List.getElem?_cons_succ] at hev
      have := (h k).2 ev hev
      rw [this, sawTransient_succ athena base (k + 1), hwait]
      cases isTransientAnswer (athena.getQueryExecution base) <;> simp

theorem pollLoop_wellTimed (athena : Athena) (QueryExecutionId : String) :
    ∀ (n : Nat) (v : PollVars) (w : World),
      ∃ ext : List Event,
        (keepCheckingRecursively athena QueryExecutionId n v w).1.2.trace = w.trace ++ ext ∧
        WellTimed athena QueryExecutionId w.pollCalls v.retry ext := by
  intro n
  induction n with
  | zero =>
    intro v w
    exact ⟨[], by simp [keepCheckingRecursively], wellTimed_nil _ _ _ _⟩
  | succ n ih =>
    intro v w
    cases hans : athena.getQueryExecution w.pollCalls with
    | ok data =>
      by_cases hs : data.State = "SUCCEEDED"
      · exact ⟨[.getQueryExecution QueryExecutionId],
          by simp [keepCheckingRecursively, hans, hs], wellTimed_single _ _ _ _⟩
      · by_cases hf : data.State = "FAILED"
        · exact ⟨[.getQueryExecution QueryExecutionId],
            by simp [keepCheckingRecursively, hans, hf], wellTimed_single _ _ _ _⟩
        · obtain ⟨ext, htrace, hwt⟩ := ih v
            (({ w with pollCalls := w.pollCalls + 1
                       trace := w.trace ++ [.getQueryExecution QueryExecutionId] } :
              World).setTimeout v.retry)
          refine ⟨.getQueryExecution QueryExecutionId :: .setTimeout v.retry :: ext, ?_, ?_⟩
          · simp only [keepCheckingRecursively, hans, hs, hf, if_false]
            rw [htrace]
            simp [World.setTimeout]
          · apply wellTimed_cons
            · simp [hans, isTransientAnswer]
            · simpa [World.setTimeout] using hwt
    | error e =>
      by_cases ht : commonAthenaErrors e = true
      · obtain ⟨ext, htrace, hwt⟩ := ih { v with retry := 2000 }
          (({ w with pollCalls := w.pollCalls + 1
                     trace := w.trace ++ [.getQueryExecution QueryExecutionId] } :
            World).setTimeout 2000)
        refine ⟨.getQueryExecution QueryExecutionId :: .setTimeout 2000 :: ext, ?_, ?_⟩
        · simp only [keepCheckingRecursively, hans, ht, if_true]
          rw [htrace]
          simp [World.setTimeout]
        · apply wellTimed_cons
          · simp [hans, isTransientAnswer, ht]
          · simpa [World.setTimeout] using hwt
      · exact ⟨[.getQueryExecution QueryExecutionId],
          by simp [keepCheckingRecursively, hans, ht], wellTimed_single _ _ _ _⟩

/-- C10: in one run of `checkIfExecutionCompleted`, the events the run adds to
the trace alternate between polls and timers, and the timer armed after poll
`k + 1` (the delay before the next poll) is 2000 ms when one of the polls
`1..k + 1` of the run was rejected with a transient error, and `config.retry`
otherwise. So every wait after the first transient polling error is 2000 ms,
also after `RUNNING` and `QUEUED` answers and also when the configured
interval is smaller. -/
theorem C10_poll_delay_after_transient_error (athena : Athena) (QueryExecutionId : String)
    (config : Config) (fuel : Nat) (w : World) :
    ∃ ext : List Event,
      (checkIfExecutionCompleted athena QueryExecutionId config fuel w).1.2.trace
        = w.trace ++ ext ∧
      ∀ k : Nat,
        (∀ ev, ext[2 * k]? = some ev → ev = .getQueryExecution QueryExecutionId) ∧
        (∀ ev, ext[2 * k + 1]? = some ev →
          ev = .setTimeout
            (if sawTransient athena w.pollCalls (k + 1) then 2000 else config.retry)) :=
  pollLoop_wellTimed athena QueryExecutionId fuel { retry := config.retry, config := config } w

/-- A run of `checkIfExecutionCompleted` with a configured interval of 200 ms
against `RUNNING`, a throttling rejection, `RUNNING`, `SUCCEEDED`: the wait
before the throttled poll is 200 ms, the two waits after it are 2000 ms. -/
theorem checkIfExecutionCompleted_throttled_once :
    checkIfExecutionCompleted throttledOnceAthena "abc" exampleConfig 4 World.initial
      = (({ retry := 200, config := exampleConfig },
          { startCalls := 0, pollCalls := 4, fetchCalls := 0,
            trace := [.getQueryExecution "abc", .setTimeout 200,
                      .getQueryExecution "abc", .setTimeout 2000,
                      .getQueryExecution "abc", .setTimeout 2000,
                      .getQueryExecution "abc"] }),
        some (.ok exampleSucceeded)) := rfl

/-! ## Structured requests and the empty matrix -/

theorem startLoop_calls_mono (athena : Athena) (params : StartParams) :
    ∀ (n : Nat) (w : World),
      w.startCalls ≤ (startQueryExecutionRecursively athena params n w).1.startCalls := by
  intro n
  induction n with
  | zero => intro w; simp [startQueryExecutionRecursively]
  | succ n ih =>
    intro w
    simp only [startQueryExecutionRecursively]
    split
    · simp
    · split
      · have h := ih
          (({ w with startCalls := w.startCalls + 1
                     trace := w.trace ++ [.startQueryExecution params] } : World).setTimeout 2000)
        simp only [World.setTimeout] at h ⊢
        omega
      · simp

theorem startLoop_calls_succ (athena : Athena) (params : StartParams) (n : Nat) (w : World) :
    w.startCalls + 1
      ≤ (startQueryExecutionRecursively athena params (n + 1) w).1.startCalls := by
  simp only [startQueryExecutionRecursively]
  split
  · simp
  · split
    · have h := startLoop_calls_mono athena params n
        (({ w with startCalls := w.startCalls + 1
                   trace := w.trace ++ [.startQueryExecution params] } : World).setTimeout 2000)
      simpa [World.setTimeout] using h
    · simp

theorem query_obj_never_typeError (config : Config) (athena : Athena) (fuel : Nat)
    (sql db : Option String) (w : World) (message : String) :
    (query (some config) athena fuel (.obj sql db) w).2 ≠ some (.error (.TypeError message)) := by
  simp only [query, Query.isFalsy, Bool.false_eq_true, if_false]
  split
  · simp
  · simp [wrap]
  · split
    · simp
    · simp [wrap]
    · split
      · simp
      · simp [wrap]
      · split
        · simp [wrap]
        · simp

/-- C11, the code at a structured request without query text: for
`{ sql: "" }` and for an object without `sql` (with any `db`), `query` does not
fail with the `TypeError` "SQL query is missing"; `startQueryExecution` is
called, with the request object itself as `QueryString`. Against a stub that
accepts every call, `query({ sql: "" })` returns a full response after one
call of each service operation. -/
theorem C11_structured_request_without_sql_is_submitted (config : Config) (athena : Athena)
    (fuel : Nat) (db : Option String) (w : World) :
    (query (some config) athena fuel (.obj (some "") db) w).2
      ≠ some (.error (.TypeError "SQL query is missing")) ∧
    (query (some config) athena fuel (.obj none db) w).2
      ≠ some (.error (.TypeError "SQL query is missing")) ∧
    w.startCalls + 1
      ≤ (startQueryExecution athena (.obj (some "") db) config (fuel + 1) w).1.startCalls ∧
    w.startCalls + 1
      ≤ (startQueryExecution athena (.obj none db) config (fuel + 1) w).1.startCalls ∧
    query (some exampleConfig) acceptingAthena 1 (.obj (some "") none) World.initial
      = ({ startCalls := 1, pollCalls := 1, fetchCalls := 1,
           trace := [.startQueryExecution ⟨.obj (some "") none, "s3://bucket", "default"⟩,
                     .getQueryExecution "abc", .getQueryResults "abc"] },
         some (.ok (attachStats (.records [[("id", some "1"), ("name", some "a")]])
           exampleSucceeded))) :=
  ⟨query_obj_never_typeError config athena fuel (some "") db w _,
    query_obj_never_typeError config athena fuel none db w _,
    startLoop_calls_succ athena _ fuel w,
    startLoop_calls_succ athena _ fuel w,
    rfl⟩

/-- C12: for the empty result matrix, `cleanUpResults` returns its argument
itself: the same empty array, no record, and no failure from the missing
header row. -/
theorem C12_cleanUpResults_empty :
    cleanUpResults [] = .ok (.raw []) ∧ (Items.raw []).length = 0 :=
  ⟨rfl, rfl⟩

/-! ## Statistics -/

theorem mathRound_bytes (b : ℕ) :
    mathRound ((b : ℚ) / BYTES_IN_MB) = (((2 * b + 1048576) / 2097152 : ℕ) : ℤ) := by
  have h : (b : ℚ) / BYTES_IN_MB + 1 / 2
      = (((2 * b + 1048576 : ℕ) : ℚ)) / ((2097152 : ℕ) : ℚ) := by
    simp only [BYTES_IN_MB]
    push_cast
    ring
  simp only [mathRound]
  rw [h, Rat.floor_natCast_div_natCast]
  norm_cast

theorem mathRound_mono (x y : ℚ) (h : x ≤ y) : mathRound x ≤ mathRound y := by
  simp only [mathRound]
  exact Int.floor_mono (by linarith)

/-- C13: for every number `DataScannedInBytes` of bytes, `DataScannedInMB` is
`DataScannedInBytes / 1048576` rounded to the nearest integer, ties rounded
up: it is `floor((2 * DataScannedInBytes + 1048576) / 2097152)`. Numbers are
exact rationals. -/
theorem C13_data_scanned_in_mb (Items : Items) (stats : QueryExecutionData) :
    (attachStats Items stats).DataScannedInMB
      = some (((2 * stats.DataScannedInBytes + 1048576) / 2097152 : ℕ) : ℤ) ∧
    (stats.DataScannedInBytes : ℚ) / 1048576 - 1 / 2
      < (((2 * stats.DataScannedInBytes + 1048576) / 2097152 : ℕ) : ℚ) ∧
    (((2 * stats.DataScannedInBytes + 1048576) / 2097152 : ℕ) : ℚ)
      ≤ (stats.DataScannedInBytes : ℚ) / 1048576 + 1 / 2 := by
  have hr := mathRound_bytes stats.DataScannedInBytes
  have hlt := Int.lt_floor_add_one ((stats.DataScannedInBytes : ℚ) / BYTES_IN_MB + 1 / 2)
  have hle := Int.floor_le ((stats.DataScannedInBytes : ℚ) / BYTES_IN_MB + 1 / 2)
  simp only [mathRound] at hr
  rw [hr] at hlt hle
  simp only [BYTES_IN_MB, Int.cast_natCast] at hlt hle
  refine ⟨?_, ?_, ?_⟩
  · simp only [attachStats]
    rw [mathRound_bytes]
  · linarith
  · linarith

/-- C18: in exact rational arithmetic, `QueryCostInUSD` is monotone in the
bytes scanned and never below `COST_FOR_10MB`: for `b1 <= b2` the cost
computed for `b1` is at most the cost computed for `b2`, and it is at least the
fixed minimum, so there is no drop where the formula switches at 10 MB. -/
theorem C18_query_cost_monotone (Items1 Items2 : Items) (stats1 stats2 : QueryExecutionData)
    (hle : stats1.DataScannedInBytes ≤ stats2.DataScannedInBytes) :
    ∃ cost1 cost2 : ℚ,
      (attachStats Items1 stats1).QueryCostInUSD = some cost1 ∧
      (attachStats Items2 stats2).QueryCostInUSD = some cost2 ∧
      cost1 ≤ cost2 ∧ COST_FOR_10MB ≤ cost1 := by
  have hm : mathRound ((stats1.DataScannedInBytes : ℚ) / BYTES_IN_MB)
      ≤ mathRound ((stats2.DataScannedInBytes : ℚ) / BYTES_IN_MB) := by
    apply mathRound_mono
    have hb : (0 : ℚ) < BYTES_IN_MB := by norm_num [BYTES_IN_MB]
    have hc : (stats1.DataScannedInBytes : ℚ) ≤ stats2.DataScannedInBytes := by exact_mod_cast hle
    exact div_le_div_of_nonneg_right hc hb.le
  have hR : (0 : ℚ) < COST_PER_MB := by norm_num [COST_PER_MB]
  refine ⟨_, _, rfl, rfl, ?_, ?_⟩
  · simp only [COST_FOR_10MB]
    split_ifs with h1 h2 h2
    · have : ((mathRound ((stats1.DataScannedInBytes : ℚ) / BYTES_IN_MB) : ℤ) : ℚ)
          ≤ (mathRound ((stats2.DataScannedInBytes : ℚ) / BYTES_IN_MB) : ℤ) := by
        exact_mod_cast hm
      exact mul_le_mul_of_nonneg_right this hR.le
    · omega
    · have : (10 : ℚ) ≤ (mathRound ((stats2.DataScannedInBytes : ℚ) / BYTES_IN_MB) : ℤ) := by
        exact_mod_cast (le_of_lt h2)
      rw [mul_comm COST_PER_MB 10]
      exact mul_le_mul_of_nonneg_right this hR.le
    · exact le_refl _
  · simp only [COST_FOR_10MB]
    split_ifs with h1
    · have : (10 : ℚ) ≤ (mathRound ((stats1.DataScannedInBytes : ℚ) / BYTES_IN_MB) : ℤ) := by
        exact_mod_cast (le_of_lt h1)
      rw [mul_comm COST_PER_MB 10]
      exact mul_le_mul_of_nonneg_right this hR.le
    · exact le_refl _

/-- C18, at 5 MB and 20 MB scanned: the costs are the fixed minimum and
20 times the rate. -/
theorem C18_query_cost_monotone_witness :
    (∃ cost1 cost2 : ℚ,
      (attachStats (.raw []) exampleSucceeded).QueryCostInUSD = some cost1 ∧
      (attachStats (.raw []) exampleSucceededLarge).QueryCostInUSD = some cost2 ∧
      cost1 ≤ cost2 ∧ COST_FOR_10MB ≤ cost1) ∧
    (attachStats (.raw []) exampleSucceeded).QueryCostInUSD = some (4768 / 100000000) ∧
    (attachStats (.raw []) exampleSucceededLarge).QueryCostInUSD = some (4768 / 50000000) :=
  ⟨C18_query_cost_monotone (.raw []) (.raw []) exampleSucceeded exampleSucceededLarge
      (by decide),
    by
      simp only [attachStats, exampleSucceeded, mathRound_bytes]
      norm_num [COST_FOR_10MB, COST_PER_MB],
    by
      simp only [attachStats, exampleSucceededLarge, mathRound_bytes]
      norm_num [COST_FOR_10MB, COST_PER_MB]⟩

/-! ## Assembly of the response -/

theorem query_of_phases (config : Config) (athena : Athena) (fuel : Nat) (q : Query)
    (w w1 w2 w3 : World) (queryExecutionId : String) (v : PollVars)
    (stats : QueryExecutionData) (queryResults : List Row)
    (hq : q.isFalsy = false)
    (hstart : startQueryExecution athena q config fuel w = (w1, some (.ok queryExecutionId)))
    (hpoll : checkIfExecutionCompleted athena queryExecutionId config fuel w1
      = ((v, w2), some (.ok stats)))
    (hfetch : getQueryResults athena queryExecutionId config fuel w2
      = (w3, some (.ok queryResults))) :
    query (some config) athena fuel q w
      = (w3, match assemble config stats queryResults with
             | .error e => some (.error (wrap e))
             | .ok results => some (.ok results)) := by
  have hv : v.config = config := by
    have := keepChecking_config athena queryExecutionId fuel
      { retry := config.retry, config := config } w1
    simp only [checkIfExecutionCompleted] at hpoll
    rw [hpoll] at this
    exact this
  simp only [query, hq, hstart, hpoll, hv, hfetch]
  cases assemble config stats queryResults <;> simp

/-- C14: the 2000 ms override is local to one run of
`checkIfExecutionCompleted`. For every stub, call budget and starting world
the shared `config` object, and with it `config.retry`, is the same after the
run as before it, whether the run has settled or not; a later run that is
handed this object starts from the configured interval again. -/
theorem C14_config_is_not_mutated (athena : Athena) (QueryExecutionId : String)
    (config : Config) (fuel : Nat) (w : World) :
    (checkIfExecutionCompleted athena QueryExecutionId config fuel w).1.1.config = config ∧
    (checkIfExecutionCompleted athena QueryExecutionId config fuel w).1.1.config.retry
      = config.retry ∧
    ∀ (laterId : String) (laterFuel : Nat) (laterWorld : World),
      checkIfExecutionCompleted athena laterId
          (checkIfExecutionCompleted athena QueryExecutionId config fuel w).1.1.config
          laterFuel laterWorld
        = keepCheckingRecursively athena laterId laterFuel
            { retry := config.retry, config := config } laterWorld := by
  have h : (checkIfExecutionCompleted athena QueryExecutionId config fuel w).1.1.config
      = config :=
    keepChecking_config athena QueryExecutionId fuel { retry := config.retry, config := config } w
  refine ⟨h, by rw [h], ?_⟩
  intro laterId laterFuel laterWorld
  rw [h]
  rfl

/-- C15: for every query that succeeds after fetching the raw matrix
`queryResults`: when `config.formatJson` is false, `Items` is that matrix
itself, header row included and cells not unwrapped; when it is true, `Items`
is what `cleanUpResults` returns for it. -/
theorem C15_items_follow_formatJson (config : Config) (athena : Athena) (fuel : Nat)
    (q : Query) (w w1 w2 w3 w4 : World) (queryExecutionId : String) (v : PollVars)
    (stats : QueryExecutionData) (queryResults : List Row) (results : Response)
    (hstart : startQueryExecution athena q config fuel w = (w1, some (.ok queryExecutionId)))
    (hpoll : checkIfExecutionCompleted athena queryExecutionId config fuel w1
      = ((v, w2), some (.ok stats)))
    (hfetch : getQueryResults athena queryExecutionId config fuel w2
      = (w3, some (.ok queryResults)))
    (hok : query (some config) athena fuel q w = (w4, some (.ok results))) :
    (config.formatJson = false → results.Items = .raw queryResults) ∧
    (config.formatJson = true → cleanUpResults queryResults = .ok results.Items) := by
  have hq : q.isFalsy = false := by
    cases hf : q.isFalsy
    · rfl
    · simp [query, hf] at hok
  have h := query_of_phases config athena fuel q w w1 w2 w3 queryExecutionId v stats
    queryResults hq hstart hpoll hfetch
  rw [hok] at h
  cases hasm : assemble config stats queryResults with
  | error e => rw [hasm] at h; simp at h
  | ok r =>
    rw [hasm] at h
    simp only [Prod.mk.injEq, Option.some.injEq, Except.ok.injEq] at h
    obtain ⟨_, hr⟩ := h
    subst hr
    simp only [assemble] at hasm
    constructor
    · intro hfalse
      simp only [hfalse, Bool.false_eq_true, if_false] at hasm
      split at hasm
      · rw [← Except.ok.inj hasm]; rfl
      · rw [← Except.ok.inj hasm]
    · intro htrue
      simp only [htrue, if_true] at hasm
      cases hc : cleanUpResults queryResults with
      | error e => rw [hc] at hasm; simp at hasm
      | ok items =>
        rw [hc] at hasm
        simp only at hasm
        split at hasm
        · rw [← Except.ok.inj hasm]; rfl
        · rw [← Except.ok.inj hasm]

/-- C15, at a stub that accepts every call: with `formatJson` set, `Items` is
the record array of `exampleRows`; with `formatJson` false it is `exampleRows`
itself. -/
theorem C15_items_follow_formatJson_witness :
    cleanUpResults exampleRows
      = .ok (attachStats (.records [[("id", some "1"), ("name", some "a")]])
          exampleSucceeded).Items ∧
    ({ Items := .raw exampleRows, DataScannedInMB := none, QueryCostInUSD := none,
       EngineExecutionTimeInMillis := none, Count := none } : Response).Items
      = .raw exampleRows :=
  ⟨(C15_items_follow_formatJson exampleConfig acceptingAthena 1 (.str "SELECT 1")
      World.initial
      (startQueryExecution acceptingAthena (.str "SELECT 1") exampleConfig 1 World.initial).1
      (checkIfExecutionCompleted acceptingAthena "abc" exampleConfig 1
        (startQueryExecution acceptingAthena (.str "SELECT 1") exampleConfig 1
          World.initial).1).1.2
      (query (some exampleConfig) acceptingAthena 1 (.str "SELECT 1") World.initial).1
      (query (some exampleConfig) acceptingAthena 1 (.str "SELECT 1") World.initial).1
      "abc"
      (checkIfExecutionCompleted acceptingAthena "abc" exampleConfig 1
        (startQueryExecution acceptingAthena (.str "SELECT 1") exampleConfig 1
          World.initial).1).1.1
      exampleSucceeded exampleRows
      (attachStats (.records [[("id", some "1"), ("name", some "a")]]) exampleSucceeded)
      rfl rfl rfl rfl).2 rfl,
    (C15_items_follow_formatJson rawConfig acceptingAthena 1 (.str "SELECT 1")
      World.initial
      (startQueryExecution acceptingAthena (.str "SELECT 1") rawConfig 1 World.initial).1
      (checkIfExecutionCompleted acceptingAthena "abc" rawConfig 1
        (startQueryExecution acceptingAthena (.str "SELECT 1") rawConfig 1
          World.initial).1).1.2
      (query (some rawConfig) acceptingAthena 1 (.str "SELECT 1") World.initial).1
      (query (some rawConfig) acceptingAthena 1 (.str "SELECT 1") World.initial).1
      "abc"
      (checkIfExecutionCompleted acceptingAthena "abc" rawConfig 1
        (startQueryExecution acceptingAthena (.str "SELECT 1") rawConfig 1
          World.initial).1).1.1
      exampleSucceeded exampleRows
      { Items := .raw exampleRows, DataScannedInMB := none, QueryCostInUSD := none,
        EngineExecutionTimeInMillis := none, Count := none }
      rfl rfl rfl rfl).1 rfl⟩

theorem keepsPolling_of_running (a : Except ServiceError QueryExecutionData)
    (h : ∃ data, a = .ok data ∧ (data.State = "RUNNING" ∨ data.State = "QUEUED")) :
    keepsPolling a = true := by
  obtain ⟨data, rfl, hs | hs⟩ := h
  · simp only [keepsPolling, hs]; decide
  · simp only [keepsPolling, hs]; decide

/-- C16: when the submission succeeds with a handle, the polls answer
`RUNNING` or `QUEUED` `k` times and then `SUCCEEDED` with statistics, the fetch
returns the matrix `queryResults`, and `formatJson` and `getStats` are both
set, then for every call budget above `k` `query` returns exactly the response
whose `Items` is `cleanUpResults(queryResults)`, whose `DataScannedInMB` is the
rounded megabyte figure of the bytes in the `SUCCEEDED` answer, whose
`QueryCostInUSD` is the cost of that figure, whose
`EngineExecutionTimeInMillis` is the time in that answer, and whose `Count` is
the length of `Items`. -/
theorem C16_query_assembles_response (config : Config) (athena : Athena) (fuel k : Nat)
    (q : Query) (w : World) (queryExecutionId : String) (stats : QueryExecutionData)
    (queryResults : List Row) (Items : Items)
    (hq : q.isFalsy = false)
    (hfuel : k < fuel)
    (hsubmit : athena.startQueryExecution w.startCalls = .ok queryExecutionId)
    (hpre : ∀ i, i < k → ∃ data, athena.getQueryExecution (w.pollCalls + i) = .ok data ∧
      (data.State = "RUNNING" ∨ data.State = "QUEUED"))
    (hk : athena.getQueryExecution (w.pollCalls + k) = .ok stats)
    (hsucceeded : stats.State = "SUCCEEDED")
    (hfetch : athena.getQueryResults w.fetchCalls = .ok queryResults)
    (hformat : config.formatJson = true)
    (hstats : config.getStats = true)
    (hclean : cleanUpResults queryResults = .ok Items) :
    ∃ w3 : World,
      query (some config) athena fuel q w
        = (w3, some (.ok
            { Items := Items
              DataScannedInMB :=
                some (mathRound ((stats.DataScannedInBytes : ℚ) / BYTES_IN_MB))
              QueryCostInUSD :=
                some (if mathRound ((stats.DataScannedInBytes : ℚ) / BYTES_IN_MB) > 10
                  then (mathRound ((stats.DataScannedInBytes : ℚ) / BYTES_IN_MB) : ℚ)
                    * COST_PER_MB
                  else COST_FOR_10MB)
              EngineExecutionTimeInMillis := some stats.EngineExecutionTimeInMillis
              Count := some Items.length })) ∧
      w3.startCalls = w.startCalls + 1 ∧
      w3.pollCalls = w.pollCalls + k + 1 ∧
      w3.fetchCalls = w.fetchCalls + 1 := by
  obtain ⟨QueryString, hqs⟩ := queryStringOf_ok q hq
  have hfuel0 : 0 < fuel := by omega
  have hA : ∃ w1 : World,
      startQueryExecution athena q config fuel w = (w1, some (.ok queryExecutionId)) ∧
      w1.startCalls = w.startCalls + 1 ∧ w1.pollCalls = w.pollCalls ∧
      w1.fetchCalls = w.fetchCalls := by
    have hstart := startLoop_run athena ⟨QueryString, config.s3, databaseOf q config⟩
      0 fuel w hfuel0 (fun i hi => absurd hi (Nat.not_lt_zero i))
      (by simp only [Nat.add_zero]; rw [hsubmit]; rfl)
    refine ⟨{ w with startCalls := w.startCalls + 0 + 1
                     trace := w.trace ++ retried (.startQueryExecution
                       ⟨QueryString, config.s3, databaseOf q config⟩) 2000 0 },
      ?_, rfl, rfl, rfl⟩
    simp only [startQueryExecution, hqs]
    rw [hstart]
    simp only [Nat.add_zero, hsubmit, settle]
  obtain ⟨w1, hstart, hs1, hp1, hf1⟩ := hA
  have hB : ∃ (v : PollVars) (w2 : World),
      checkIfExecutionCompleted athena queryExecutionId config fuel w1
        = ((v, w2), some (.ok stats)) ∧
      w2.startCalls = w1.startCalls ∧ w2.pollCalls = w1.pollCalls + k + 1 ∧
      w2.fetchCalls = w1.fetchCalls := by
    obtain ⟨v1, _, hrun⟩ := pollLoop_run athena queryExecutionId k fuel
      { retry := config.retry, config := config } w1 hfuel
      (fun i hi => keepsPolling_of_running _ (by rw [hp1]; exact hpre i hi))
      (by rw [hp1, hk]; simp only [keepsPolling, hsucceeded]; decide)
    refine ⟨v1, { w1 with pollCalls := w1.pollCalls + k + 1
                          trace := w1.trace ++
                            pollRun athena queryExecutionId k w1.pollCalls config.retry },
      ?_, rfl, rfl, rfl⟩
    simp only [checkIfExecutionCompleted]
    rw [hrun, hp1, hk]
    simp only [settlePoll, hsucceeded]
    rfl
  obtain ⟨v, w2, hpoll, hs2, hp2, hf2⟩ := hB
  have hC : ∃ w3 : World,
      getQueryResults athena queryExecutionId config fuel w2 = (w3, some (.ok queryResults)) ∧
      w3.startCalls = w2.startCalls ∧ w3.pollCalls = w2.pollCalls ∧
      w3.fetchCalls = w2.fetchCalls + 1 := by
    have hf := fetchLoop_run athena queryExecutionId 0 fuel w2 hfuel0
      (fun i hi => absurd hi (Nat.not_lt_zero i))
      (by simp only [Nat.add_zero]; rw [hf2, hf1, hfetch]; rfl)
    refine ⟨{ w2 with fetchCalls := w2.fetchCalls + 0 + 1
                      trace := w2.trace ++ retried (.getQueryResults queryExecutionId) 2000 0 },
      ?_, rfl, rfl, rfl⟩
    simp only [getQueryResults]
    rw [hf]
    simp only [Nat.add_zero, hf2, hf1, hfetch, settle]
  obtain ⟨w3, hfetch3, hs3, hp3, hf3⟩ := hC
  have h := query_of_phases config athena fuel q w w1 w2 w3 queryExecutionId v stats
    queryResults hq hstart hpoll hfetch3
  refine ⟨w3, ?_, by omega, by omega, by omega⟩
  rw [h]
  simp only [assemble, hformat, hstats, hclean, if_true, attachStats]

/-- C16, at the scenario of the specification: handle `abc`, `RUNNING` once and
then `SUCCEEDED` with 5242880 bytes scanned, the matrix with header
`[id, name]` and the row `[1, a]`. -/
theorem C16_query_assembles_response_witness :
    ∃ w3 : World,
      query (some exampleConfig) scenarioAthena 2 (.str "SELECT 1") World.initial
        = (w3, some (.ok
            { Items := .records [[("id", some "1"), ("name", some "a")]]
              DataScannedInMB := some 5
              QueryCostInUSD := some COST_FOR_10MB
              EngineExecutionTimeInMillis := some 120
              Count := some 1 })) ∧
      w3.startCalls = 1 ∧ w3.pollCalls = 2 ∧ w3.fetchCalls = 1 := by
  have h := C16_query_assembles_response exampleConfig scenarioAthena 2 1 (.str "SELECT 1")
    World.initial "abc" exampleSucceeded exampleRows
    (.records [[("id", some "1"), ("name", some "a")]])
    rfl (by decide) rfl
    (by
      intro i hi
      have hi0 : i = 0 := by omega
      subst hi0
      exact ⟨exampleRunning, rfl, Or.inl rfl⟩)
    rfl rfl rfl rfl rfl rfl
  have h5 : mathRound ((exampleSucceeded.DataScannedInBytes : ℚ) / BYTES_IN_MB) = 5 := by
    rw [mathRound_bytes]
    rfl
  rw [h5] at h
  obtain ⟨w3, hq, h1, h2, h3⟩ := h
  refine ⟨w3, ?_, h1, h2, h3⟩
  rw [hq]
  simp [exampleSucceeded, Items.length]

/-! ## Records with repeated header names and cells without value -/

theorem getOwn_assignOwn_same (obj : JsObject) (key : String) (value : Option String) :
    JsObject.getOwn (JsObject.assignOwn obj key value) key = some value := by
  induction obj with
  | nil => simp [JsObject.assignOwn, JsObject.getOwn]
  | cons p rest ih =>
    obtain ⟨k, v⟩ := p
    by_cases hk : k = key
    · simp [JsObject.assignOwn, JsObject.getOwn, hk]
    · simp [JsObject.assignOwn, JsObject.getOwn, hk, ih]

theorem getOwn_assignOwn_other (obj : JsObject) (key other : String) (value : Option String)
    (h : other ≠ key) :
    JsObject.getOwn (JsObject.assignOwn obj key value) other = JsObject.getOwn obj other := by
  induction obj with
  | nil =>
    have h2 : ¬ key = other := fun e => h e.symm
    simp [JsObject.assignOwn, JsObject.getOwn, h2]
  | cons p rest ih =>
    obtain ⟨k, v⟩ := p
    by_cases hk : k = key
    · have hko : ¬ k = other := fun e => h (e.symm.trans hk)
      simp only [JsObject.assignOwn, hk, if_true, JsObject.getOwn]
      rw [hk] at hko
      simp only [hko, if_false]
    · by_cases hko : k = other
      · subst hko
        simp only [JsObject.assignOwn, hk, if_false, JsObject.getOwn, if_true]
      · simp only [JsObject.assignOwn, hk, if_false, JsObject.getOwn, hko, ih]

theorem keys_assignOwn_mem (obj : JsObject) (key other : String) (value : Option String) :
    other ∈ JsObject.keys (JsObject.assignOwn obj key value)
      ↔ other = key ∨ other ∈ JsObject.keys obj := by
  induction obj with
  | nil => simp [JsObject.assignOwn, JsObject.keys]
  | cons p rest ih =>
    obtain ⟨k, v⟩ := p
    simp only [JsObject.keys] at ih
    by_cases hk : k = key
    · simp only [JsObject.assignOwn, hk, if_true, JsObject.keys, List.map_cons, List.mem_cons]
      tauto
    · simp only [JsObject.assignOwn, hk, if_false, JsObject.keys, List.map_cons, List.mem_cons, ih]
      tauto

theorem keys_assignOwn_nodup (obj : JsObject) (key : String) (value : Option String)
    (h : (JsObject.keys obj).Nodup) : (JsObject.keys (JsObject.assignOwn obj key value)).Nodup := by
  induction obj with
  | nil => simp [JsObject.assignOwn, JsObject.keys]
  | cons p rest ih =>
    obtain ⟨k, v⟩ := p
    simp only [JsObject.keys, List.map_cons, List.nodup_cons] at h
    by_cases hk : k = key
    · simp only [JsObject.assignOwn, hk, if_true, JsObject.keys, List.map_cons, List.nodup_cons]
      rw [← hk]
      exact h
    · simp only [JsObject.assignOwn, hk, if_false, JsObject.keys, List.map_cons, List.nodup_cons]
      refine ⟨?_, ih h.2⟩
      intro hmem
      have := (keys_assignOwn_mem rest key k value).mp hmem
      rcases this with e | hm
      · exact hk e
      · exact h.1 hm

theorem foldlOwn_getOwn_of_forall_ne (header row : List Datum) (key : String) :
    ∀ (cs : List Nat) (acc : JsObject),
      (∀ c ∈ cs, propertyKey (headerValue header c) ≠ key) →
      JsObject.getOwn (cs.foldl (recordStepOwn header row) acc) key = JsObject.getOwn acc key := by
  intro cs
  induction cs with
  | nil => intro acc _; rfl
  | cons c cs ih =>
    intro acc h
    simp only [List.foldl_cons]
    rw [ih _ (fun c' hc' => h c' (List.mem_cons_of_mem _ hc'))]
    simp only [recordStepOwn]
    exact getOwn_assignOwn_other _ _ _ _ (fun e => h c (List.mem_cons_self _ _) e.symm)

theorem foldlOwn_getOwn_last (header row : List Datum) (pre post : List Nat) (c : Nat)
    (acc : JsObject)
    (h : ∀ c' ∈ post, propertyKey (headerValue header c') ≠ propertyKey (headerValue header c)) :
    JsObject.getOwn ((pre ++ c :: post).foldl (recordStepOwn header row) acc)
        (propertyKey (headerValue header c))
      = some (rowValue row c) := by
  rw [List.foldl_append, List.foldl_cons, foldlOwn_getOwn_of_forall_ne header row _ post _ h]
  simp only [recordStepOwn]
  exact getOwn_assignOwn_same _ _ _

theorem foldlOwn_keys_mem (header row : List Datum) (key : String) :
    ∀ (cs : List Nat) (acc : JsObject),
      key ∈ JsObject.keys (cs.foldl (recordStepOwn header row) acc)
        ↔ key ∈ JsObject.keys acc ∨ ∃ c ∈ cs, propertyKey (headerValue header c) = key := by
  intro cs
  induction cs with
  | nil => intro acc; simp
  | cons c cs ih =>
    intro acc
    simp only [List.foldl_cons]
    rw [ih]
    simp only [recordStepOwn, keys_assignOwn_mem, List.mem_cons, exists_eq_or_imp]
    constructor
    · rintro ((h | h) | h)
      · exact Or.inr (Or.inl h.symm)
      · exact Or.inl h
      · exact Or.inr (Or.inr h)
    · rintro (h | h | h)
      · exact Or.inl (Or.inr h)
      · exact Or.inl (Or.inl h.symm)
      · exact Or.inr h

theorem foldlOwn_keys_nodup (header row : List Datum) :
    ∀ (cs : List Nat) (acc : JsObject), (JsObject.keys acc).Nodup →
      (JsObject.keys (cs.foldl (recordStepOwn header row) acc)).Nodup := by
  intro cs
  induction cs with
  | nil => intro acc h; exact h
  | cons c cs ih =>
    intro acc h
    simp only [List.foldl_cons]
    exact ih _ (keys_assignOwn_nodup _ _ _ h)

theorem headerNames_mem_iff (header : List Datum) (key : String) :
    key ∈ headerNames header
      ↔ ∃ c ∈ List.range header.length, propertyKey (headerValue header c) = key := by
  simp only [headerNames, List.mem_map, List.mem_range]
  constructor
  · rintro ⟨d, hd, rfl⟩
    obtain ⟨c, hc, rfl⟩ := List.mem_iff_getElem.mp hd
    exact ⟨c, hc, by simp [headerValue, List.getElem?_eq_getElem hc]⟩
  · rintro ⟨c, hc, rfl⟩
    exact ⟨header[c], List.getElem_mem hc, by simp [headerValue, List.getElem?_eq_getElem hc]⟩

theorem recordOfRow_keys_mem (header row : List Datum)
    (hproto : "__proto__" ∉ headerNames header) (key : String) :
    key ∈ JsObject.keys (recordOfRow header row) ↔ key ∈ headerNames header := by
  rw [headerNames_mem_iff, recordOfRow_own header row hproto, foldlOwn_keys_mem]
  simp [JsObject.keys]

theorem recordOfRow_keys_nodup (header row : List Datum)
    (hproto : "__proto__" ∉ headerNames header) :
    (JsObject.keys (recordOfRow header row)).Nodup := by
  rw [recordOfRow_own header row hproto]
  exact foldlOwn_keys_nodup header row _ [] (by simp [JsObject.keys])

theorem recordOfRow_getOwn_last (header row : List Datum)
    (hproto : "__proto__" ∉ headerNames header) (c : Nat) (hc : c < header.length)
    (hlast : ∀ c', c < c' → c' < header.length →
      propertyKey (headerValue header c') ≠ propertyKey (headerValue header c)) :
    JsObject.getOwn (recordOfRow header row) (propertyKey (headerValue header c))
      = some (rowValue row c) := by
  obtain ⟨pre, post, hsplit⟩ := List.append_of_mem (List.mem_range.mpr hc)
  have hpw := List.pairwise_lt_range header.length
  rw [hsplit] at hpw
  have hpost : ∀ c' ∈ post, c < c' ∧ c' < header.length := by
    intro c' hc'
    have h1 := (List.pairwise_append.mp hpw).2.1
    have h2 := (List.pairwise_cons.mp h1).1 c' hc'
    have h3 : c' ∈ List.range header.length := by
      rw [hsplit]
      exact List.mem_append_right _ (List.mem_cons_of_mem _ hc')
    exact ⟨h2, List.mem_range.mp h3⟩
  rw [recordOfRow_own header row hproto, hsplit]
  exact foldlOwn_getOwn_last header row pre post c []
    (fun c' hc' => hlast c' (hpost c' hc').1 (hpost c' hc').2)

theorem recordOfRow_keys_length_iff (header row : List Datum)
    (hproto : "__proto__" ∉ headerNames header) :
    (JsObject.keys (recordOfRow header row)).length = header.length
      ↔ (headerNames header).Nodup := by
  have hnd := recordOfRow_keys_nodup header row hproto
  have hlen : (headerNames header).length = header.length := by simp [headerNames]
  constructor
  · intro h
    have hsub : JsObject.keys (recordOfRow header row) ⊆ headerNames header :=
      fun k hk => (recordOfRow_keys_mem header row hproto k).mp hk
    have hperm := (List.subperm_of_subset hnd hsub).perm_of_length_le (by omega)
    exact hperm.nodup_iff.mp hnd
  · intro h
    have hperm : (JsObject.keys (recordOfRow header row)).Perm (headerNames header) :=
      (List.perm_ext_iff_of_nodup hnd h).mpr
        (fun k => recordOfRow_keys_mem header row hproto k)
    rw [hperm.length_eq, hlen]

theorem foldl_recordStep_congr (header row other : List Datum) :
    ∀ (cs : List Nat) (acc : JsObject), (∀ c ∈ cs, rowValue row c = rowValue other c) →
      cs.foldl (recordStep header row) acc = cs.foldl (recordStep header other) acc := by
  intro cs
  induction cs with
  | nil => intro acc _; rfl
  | cons c cs ih =>
    intro acc h
    simp only [List.foldl_cons]
    rw [ih _ (fun c' hc' => h c' (List.mem_cons_of_mem _ hc'))]
    simp only [recordStep, h c (List.mem_cons_self _ _)]

theorem recordOfRow_take (header row : List Datum) :
    recordOfRow header (row.take header.length) = recordOfRow header row := by
  simp only [recordOfRow]
  apply foldl_recordStep_congr
  intro c hc
  simp only [rowValue, List.getElem?_take_of_lt (List.mem_range.mp hc)]

theorem headerNames_getElem (header : List Datum) (c : Nat) (hc : c < header.length) :
    (headerNames header)[c]? = some (propertyKey (headerValue header c)) := by
  simp [headerNames, headerValue, List.getElem?_eq_getElem hc]

theorem headerName_ne_of_nodup (header : List Datum) (hnd : (headerNames header).Nodup)
    (c other : Nat) (hc : c < header.length) (ho : other < header.length) (hne : other ≠ c) :
    propertyKey (headerValue header other) ≠ propertyKey (headerValue header c) := by
  intro heq
  have hlen : (headerNames header).length = header.length := by simp [headerNames]
  have h1 := headerNames_getElem header c hc
  have h2 := headerNames_getElem header other ho
  have hc2 : c < (headerNames header).length := by omega
  have ho2 : other < (headerNames header).length := by omega
  rw [List.getElem?_eq_getElem hc2] at h1
  rw [List.getElem?_eq_getElem ho2] at h2
  have h3 : (headerNames header)[other] = (headerNames header)[c] := by
    rw [Option.some.inj h1, Option.some.inj h2, heq]
  exact hne ((hnd.getElem_inj_iff).mp h3)

/-- C19, refuted as stated: with the header `[__proto__, b]` and the data row
`[1, 2]` the header names are pairwise distinct, but the record has the one
key `b`: `__proto__` is a header name and not a key of the record, and the
record does not have `columnCount = 2` keys. -/
theorem C19_proto_header_counterexample :
    ∃ record : JsObject,
      cleanUpResults [⟨[⟨some "__proto__"⟩, ⟨some "b"⟩]⟩, ⟨[⟨some "1"⟩, ⟨some "2"⟩]⟩]
        = .ok (.records [record]) ∧
      (headerNames [⟨some "__proto__"⟩, ⟨some "b"⟩]).Nodup ∧
      "__proto__" ∈ headerNames [⟨some "__proto__"⟩, ⟨some "b"⟩] ∧
      "__proto__" ∉ JsObject.keys record ∧
      (JsObject.keys record).length
        ≠ ([⟨some "__proto__"⟩, ⟨some "b"⟩] : List Datum).length :=
  ⟨[("b", some "2")], rfl, by decide, by decide, by decide, by decide⟩

/-- C19, amended: for a non-empty matrix whose data rows each have at least
`columnCount` cells and none of whose header names is `__proto__`, the keys of
every record are exactly the distinct header names of row 0, cells beyond the
header width being ignored; for a name that occurs at several header positions
the value is the cell at the last such position; and a record has
`columnCount` keys exactly when the header names are pairwise distinct. -/
theorem C19_record_keys_and_repeated_names (header : Row) (rest : List Row)
    (haligned : ∀ row ∈ rest, header.Data.length ≤ row.Data.length)
    (hproto : "__proto__" ∉ headerNames header.Data) :
    ∃ records : List JsObject,
      cleanUpResults (header :: rest) = .ok (.records records) ∧
      cleanUpResults
          (header :: rest.map (fun row => ({ Data := row.Data.take header.Data.length } : Row)))
        = .ok (.records records) ∧
      ∀ (r : Nat) (row : Row), rest[r]? = some row →
        ∃ record : JsObject, records[r]? = some record ∧
          (∀ key : String, key ∈ JsObject.keys record ↔ key ∈ headerNames header.Data) ∧
          (JsObject.keys record).Nodup ∧
          (∀ c : Nat, c < header.Data.length →
            (∀ c', c < c' → c' < header.Data.length →
              propertyKey (headerValue header.Data c')
                ≠ propertyKey (headerValue header.Data c)) →
            JsObject.getOwn record (propertyKey (headerValue header.Data c))
              = some (rowValue row.Data c)) ∧
          ((JsObject.keys record).length = header.Data.length
            ↔ (headerNames header.Data).Nodup) := by
  refine ⟨rest.map (fun row => recordOfRow header.Data row.Data),
    cleanUpResults_aligned header rest haligned, ?_, ?_⟩
  · rw [cleanUpResults_aligned header _ (by
      intro row hrow
      obtain ⟨orig, horig, rfl⟩ := List.mem_map.mp hrow
      simp only [List.length_take]
      exact Nat.le_min.mpr ⟨le_refl _, haligned orig horig⟩)]
    simp only [List.map_map, Function.comp_def, recordOfRow_take]
  · intro r row hr
    refine ⟨recordOfRow header.Data row.Data, by simp [hr],
      fun key => recordOfRow_keys_mem header.Data row.Data hproto key,
      recordOfRow_keys_nodup header.Data row.Data hproto,
      fun c hc hlast => recordOfRow_getOwn_last header.Data row.Data hproto c hc hlast,
      recordOfRow_keys_length_iff header.Data row.Data hproto⟩

/-- C19 amended, at the header `[a, b, a]` and the data row `[1, 2, 3, 4]`: the record
has the keys `a` and `b`, the value of `a` is the cell of column 2, and the
fourth cell is ignored. -/
theorem C19_record_keys_and_repeated_names_witness :
    (∃ records : List JsObject,
      cleanUpResults ((⟨[⟨some "a"⟩, ⟨some "b"⟩, ⟨some "a"⟩]⟩ : Row) ::
          [⟨[⟨some "1"⟩, ⟨some "2"⟩, ⟨some "3"⟩, ⟨some "4"⟩]⟩])
        = .ok (.records records) ∧
      cleanUpResults
          ((⟨[⟨some "a"⟩, ⟨some "b"⟩, ⟨some "a"⟩]⟩ : Row) ::
            ([⟨[⟨some "1"⟩, ⟨some "2"⟩, ⟨some "3"⟩, ⟨some "4"⟩]⟩] : List Row).map
              (fun row => ({ Data := row.Data.take 3 } : Row)))
        = .ok (.records records) ∧
      ∀ (r : Nat) (row : Row),
        ([⟨[⟨some "1"⟩, ⟨some "2"⟩, ⟨some "3"⟩, ⟨some "4"⟩]⟩] : List Row)[r]? = some row →
        ∃ record : JsObject, records[r]? = some record ∧
          (∀ key : String, key ∈ JsObject.keys record
            ↔ key ∈ headerNames [⟨some "a"⟩, ⟨some "b"⟩, ⟨some "a"⟩]) ∧
          (JsObject.keys record).Nodup ∧
          (∀ c : Nat, c < ([⟨some "a"⟩, ⟨some "b"⟩, ⟨some "a"⟩] : List Datum).length →
            (∀ c', c < c' → c' < ([⟨some "a"⟩, ⟨some "b"⟩, ⟨some "a"⟩] : List Datum).length →
              propertyKey (headerValue [⟨some "a"⟩, ⟨some "b"⟩, ⟨some "a"⟩] c')
                ≠ propertyKey (headerValue [⟨some "a"⟩, ⟨some "b"⟩, ⟨some "a"⟩] c)) →
            JsObject.getOwn record
                (propertyKey (headerValue [⟨some "a"⟩, ⟨some "b"⟩, ⟨some "a"⟩] c))
              = some (rowValue row.Data c)) ∧
          ((JsObject.keys record).length
              = ([⟨some "a"⟩, ⟨some "b"⟩, ⟨some "a"⟩] : List Datum).length
            ↔ (headerNames [⟨some "a"⟩, ⟨some "b"⟩, ⟨some "a"⟩]).Nodup)) ∧
    cleanUpResults
        [⟨[⟨some "a"⟩, ⟨some "b"⟩, ⟨some "a"⟩]⟩,
          ⟨[⟨some "1"⟩, ⟨some "2"⟩, ⟨some "3"⟩, ⟨some "4"⟩]⟩]
      = .ok (.records [[("a", some "3"), ("b", some "2")]]) :=
  ⟨C19_record_keys_and_repeated_names ⟨[⟨some "a"⟩, ⟨some "b"⟩, ⟨some "a"⟩]⟩
      [⟨[⟨some "1"⟩, ⟨some "2"⟩, ⟨some "3"⟩, ⟨some "4"⟩]⟩] (by decide) (by decide),
    rfl⟩

/-- C17, refuted as stated: with the header `[a, a]` and the data row
`[{}, 2]`, whose first cell carries no value, the record maps the name of
column 0 to the cell of column 1, not to `undefined`; with the header
`[__proto__, b]` and the same row the record has no own property for the name
of column 0. -/
theorem C17_missing_value_overwritten_counterexample :
    (∃ record : JsObject,
      cleanUpResults [⟨[⟨some "a"⟩, ⟨some "a"⟩]⟩, ⟨[⟨none⟩, ⟨some "2"⟩]⟩]
        = .ok (.records [record]) ∧
      ([⟨none⟩, ⟨some "2"⟩] : List Datum)[0]? = some ⟨none⟩ ∧
      JsObject.getOwn record (propertyKey (headerValue [⟨some "a"⟩, ⟨some "a"⟩] 0))
        ≠ some none) ∧
    (∃ record : JsObject,
      cleanUpResults [⟨[⟨some "__proto__"⟩, ⟨some "b"⟩]⟩, ⟨[⟨none⟩, ⟨some "2"⟩]⟩]
        = .ok (.records [record]) ∧
      ([⟨none⟩, ⟨some "2"⟩] : List Datum)[0]? = some ⟨none⟩ ∧
      JsObject.getOwn record (propertyKey (headerValue [⟨some "__proto__"⟩, ⟨some "b"⟩] 0))
        ≠ some none) :=
  ⟨⟨[("a", some "2")], rfl, rfl, by decide⟩,
    ⟨[("b", some "2")], rfl, rfl, by decide⟩⟩

/-- C17, amended: for a non-empty matrix whose data rows are aligned to the
header row and whose header names are pairwise distinct and none of them
`__proto__`, in which the cell of column `c` of some data row carries no value,
`cleanUpResults` does not fail, the record of that row maps the name of column
`c` to `undefined`, and every column of every row gets its own value. -/
theorem C17_cleanUpResults_tolerates_missing_value (header : Row) (rest : List Row)
    (r c : Nat) (row : Row)
    (haligned : ∀ row ∈ rest, header.Data.length ≤ row.Data.length)
    (hdistinct : (headerNames header.Data).Nodup)
    (hproto : "__proto__" ∉ headerNames header.Data)
    (hrow : rest[r]? = some row)
    (hc : c < header.Data.length)
    (hmissing : row.Data[c]? = some ⟨none⟩) :
    ∃ records : List JsObject,
      cleanUpResults (header :: rest) = .ok (.records records) ∧
      (∃ record : JsObject, records[r]? = some record ∧
        JsObject.getOwn record (propertyKey (headerValue header.Data c)) = some none) ∧
      ∀ (r' : Nat) (row' : Row) (c' : Nat), rest[r']? = some row' →
        c' < header.Data.length →
        ∃ record' : JsObject, records[r']? = some record' ∧
          JsObject.getOwn record' (propertyKey (headerValue header.Data c'))
            = some (rowValue row'.Data c') := by
  have hget : ∀ (row' : Row) (c' : Nat), c' < header.Data.length →
      JsObject.getOwn (recordOfRow header.Data row'.Data)
          (propertyKey (headerValue header.Data c'))
        = some (rowValue row'.Data c') := by
    intro row' c' hc'
    apply recordOfRow_getOwn_last header.Data row'.Data hproto c' hc'
    intro c'' hlt hc''
    exact headerName_ne_of_nodup header.Data hdistinct c' c'' hc' hc'' (by omega)
  refine ⟨rest.map (fun row => recordOfRow header.Data row.Data),
    cleanUpResults_aligned header rest haligned, ?_, ?_⟩
  · refine ⟨recordOfRow header.Data row.Data, by simp [hrow], ?_⟩
    rw [hget row c hc]
    simp [rowValue, hmissing]
  · intro r' row' c' hr' hc'
    exact ⟨recordOfRow header.Data row'.Data, by simp [hr'], hget row' c' hc'⟩

/-- C17 amended, at the header `[id, name]` and the data rows `[1, {}]`,
`[2, b]`: the first record maps `name` to `undefined`. -/
theorem C17_cleanUpResults_tolerates_missing_value_witness :
    (∃ records : List JsObject,
      cleanUpResults ((⟨[⟨some "id"⟩, ⟨some "name"⟩]⟩ : Row) ::
          [⟨[⟨some "1"⟩, ⟨none⟩]⟩, ⟨[⟨some "2"⟩, ⟨some "b"⟩]⟩])
        = .ok (.records records) ∧
      (∃ record : JsObject, records[0]? = some record ∧
        JsObject.getOwn record (propertyKey (headerValue [⟨some "id"⟩, ⟨some "name"⟩] 1))
          = some none) ∧
      ∀ (r' : Nat) (row' : Row) (c' : Nat),
        ([⟨[⟨some "1"⟩, ⟨none⟩]⟩, ⟨[⟨some "2"⟩, ⟨some "b"⟩]⟩] : List Row)[r']? = some row' →
        c' < ([⟨some "id"⟩, ⟨some "name"⟩] : List Datum).length →
        ∃ record' : JsObject, records[r']? = some record' ∧
          JsObject.getOwn record' (propertyKey (headerValue [⟨some "id"⟩, ⟨some "name"⟩] c'))
            = some (rowValue row'.Data c')) ∧
    cleanUpResults
        [⟨[⟨some "id"⟩, ⟨some "name"⟩]⟩, ⟨[⟨some "1"⟩, ⟨none⟩]⟩, ⟨[⟨some "2"⟩, ⟨some "b"⟩]⟩]
      = .ok (.records [[("id", some "1"), ("name", none)],
                       [("id", some "2"), ("name", some "b")]]) :=
  ⟨C17_cleanUpResults_tolerates_missing_value ⟨[⟨some "id"⟩, ⟨some "name"⟩]⟩
      [⟨[⟨some "1"⟩, ⟨none⟩]⟩, ⟨[⟨some "2"⟩, ⟨some "b"⟩]⟩] 0 1 ⟨[⟨some "1"⟩, ⟨none⟩]⟩
      (by decide) (by decide) (by decide) rfl (by decide) rfl,
    rfl⟩

end AthenaExpress
